import Mathlib

/-!
# MMA8653FC accelerometer driver and signal-energy pipeline

A shallow embedding of `mma8653fc_driver.c` and `app_main.c`.

* Machine integers are natural numbers or integers with explicit truncation:
  `uint8_t`, `uint16_t` and `unsigned int` values are reduced modulo `2^8`, `2^16`
  and `2^32`; `int` is 32 bits wide (the target is a Cortex-M4).
* Code that computes on `float` is embedded once, over any number type with the operations
  it uses, and read at two types: `F32`, the IEEE 754 binary32 values with every operation
  rounded to nearest, ties to even (the `float` of the target), and `ℚ`, the same
  computation with arithmetic taken exactly.
* The constants of `mma8653fc_reg.h` are a parameter (`RegDefs`) of every function
  that uses them.
-/

namespace Mma8653fc

/-! ## Machine integers -/

/-- Conversion to `uint8_t`. -/
def u8 (n : Nat) : Nat := n % 2 ^ 8

/-- Conversion to `uint16_t`. -/
def u16 (n : Nat) : Nat := n % 2 ^ 16

/-- Conversion to `unsigned int`. -/
def u32 (n : Nat) : Nat := n % 2 ^ 32

/-- Conversion of an `unsigned int` bit pattern to `signed int` (two's complement). -/
def toInt32 (n : Nat) : Int :=
  if n % 2 ^ 32 < 2 ^ 31 then (n % 2 ^ 32 : Nat) else ((n % 2 ^ 32 : Nat) : Int) - 2 ^ 32

/-- Conversion of a `signed int` to `int16_t` (two's complement truncation). -/
def toInt16 (z : Int) : Int :=
  if z % 2 ^ 16 < 2 ^ 15 then z % 2 ^ 16 else z % 2 ^ 16 - 2 ^ 16

/-- Bit pattern of the C expression `~x` for an `int` operand `x`. -/
def cnot (x : Nat) : Nat := 2 ^ 32 - 1 - x % 2 ^ 32

/-! ## The type `float` -/

/-- A value of the C type `float`, IEEE 754 binary32: the finite value `m * 2^(-149)` for an
integer `m`, or a non-finite value (an infinity or a NaN, which are not told apart). The two
zeros are identified. -/
inductive F32 where
  | finite (m : Int)
  | nonfinite
deriving DecidableEq, Repr

namespace F32

/-- The number of low bits of `q` that do not fit in a 24-bit significand: the least `s`
with `q / 2^s < 2^24`. The first argument bounds the number of halvings; `q` itself is
enough. -/
def excessBits : Nat → Nat → Nat
  | 0, _ => 0
  | fuel + 1, q => if q < 2 ^ 24 then 0 else excessBits fuel (q / 2) + 1

/-- Rounding to nearest, ties to even, of the exact value `num / den`, given in units of
`2^(-149)` with `den > 0`, to 24 significant bits. The quantum is `2^s` units, with `s = 0`
in the subnormal and lowest normal range. A rounded magnitude of `2^24 * 2^253` units or
more is beyond the largest finite `float` and overflows. -/
def round (num : Int) (den : Nat) : F32 :=
  let a := num.natAbs
  let q := a / den
  let s := excessBits q q
  let d := den * 2 ^ s
  let n := a / d
  let r := a % d
  let n := if d < 2 * r ∨ (2 * r = d ∧ n % 2 = 1) then n + 1 else n
  let m := n * 2 ^ s
  if 2 ^ 24 * 2 ^ 253 ≤ m then nonfinite else finite (if num < 0 then -(m : Int) else (m : Int))

/-- Addition of `float` values. -/
def add : F32 → F32 → F32
  | finite a, finite b => round (a + b) 1
  | _, _ => nonfinite

/-- Subtraction of `float` values. -/
def sub : F32 → F32 → F32
  | finite a, finite b => round (a - b) 1
  | _, _ => nonfinite

/-- Multiplication of `float` values. -/
def mul : F32 → F32 → F32
  | finite a, finite b => round (a * b) (2 ^ 149)
  | _, _ => nonfinite

/-- Division of `float` values. A zero divisor gives a non-finite value. The divisors of the
embedded code are converted integers, so a non-finite divisor does not occur; the quotient by
one is given as non-finite. -/
def div : F32 → F32 → F32
  | finite a, finite b =>
    if b = 0 then nonfinite else round (a * 2 ^ 149 * Int.sign b) b.natAbs
  | _, _ => nonfinite

/-- Conversion of an unsigned integer to `float`. -/
def ofNat (n : Nat) : F32 := round ((n : Int) * 2 ^ 149) 1

/-- Conversion of a signed integer to `float`. -/
def ofInt (z : Int) : F32 := round (z * 2 ^ 149) 1

instance : Zero F32 := ⟨finite 0⟩

instance : Add F32 := ⟨add⟩

instance : Sub F32 := ⟨sub⟩

instance : Mul F32 := ⟨mul⟩

instance : Div F32 := ⟨div⟩

instance : NatCast F32 := ⟨ofNat⟩

instance : IntCast F32 := ⟨ofInt⟩

end F32

/-! ## Raw sample decoder: `convert_to_count` -/

/-- One iteration of the bit-inversion loop of `convert_to_count`:
`if ((shifted_val & (0b1 << bit_idx)) == 0) not_value |= (0b1 << bit_idx);` -/
def notValueStep (shifted_val : Nat) (not_value : Nat) (bit_idx : Nat) : Nat :=
  if shifted_val &&& (1 <<< bit_idx) = 0 then u32 (not_value ||| (1 <<< bit_idx)) else not_value

/-- The loop `for (bit_idx = 0; bit_idx <= 9; bit_idx++)` of `convert_to_count`,
started with `not_value = 0`. -/
def notValueLoop (shifted_val : Nat) : Nat :=
  (List.range 10).foldl (notValueStep shifted_val) 0

/-- Embedding of `int16_t convert_to_count(uint16_t raw_val)`. -/
def convert_to_count (raw_val : Nat) : Int :=
  let shifted_val := u16 (u16 raw_val >>> 6)
  let res : Int :=
    if shifted_val &&& (1 <<< 9) = 0 then
      (shifted_val : Int)
    else
      let not_value := notValueLoop shifted_val
      let absolute_value := u32 (not_value + 1)
      -- `(-1) * absolute_value` is evaluated in `unsigned int`, then converted to `signed int`
      toInt32 (u32 ((2 ^ 32 - 1) * absolute_value))
  toInt16 res

/-- Sign extension of a 10-bit field, in the words of the specification:
the field itself below 512, the field minus 1024 from 512 on. -/
def signExtend10 (f : Nat) : Int :=
  if f < 512 then (f : Int) else (f : Int) - 1024

/-! ## Register map and bus -/

/-- The constants of `mma8653fc_reg.h` used by the driver. The header is not among the
sources, so its values are a parameter of the embedding. -/
structure RegDefs where
  MMA8653FC_SLAVE_ADDRESS_READ : Nat
  MMA8653FC_SLAVE_ADDRESS_WRITE : Nat
  MMA8653FC_REGADDR_STATUS : Nat
  MMA8653FC_REGADDR_SYSMOD : Nat
  MMA8653FC_REGADDR_WHO_AM_I : Nat
  MMA8653FC_REGADDR_XYZ_DATA_CFG : Nat
  MMA8653FC_REGADDR_CTRL_REG1 : Nat
  MMA8653FC_REGADDR_CTRL_REG2 : Nat
  MMA8653FC_REGADDR_CTRL_REG3 : Nat
  MMA8653FC_REGADDR_CTRL_REG4 : Nat
  MMA8653FC_REGADDR_CTRL_REG5 : Nat
  MMA8653FC_SYSMOD_MOD_STANDBY : Nat
  MMA8653FC_CTRL_REG1_SAMODE_MASK : Nat
  MMA8653FC_CTRL_REG1_SAMODE_SHIFT : Nat
  MMA8653FC_CTRL_REG1_SAMODE_STANDBY : Nat
  MMA8653FC_CTRL_REG1_SAMODE_ACTIVE : Nat
  MMA8653FC_CTRL_REG1_DATA_RATE_MASK : Nat
  MMA8653FC_CTRL_REG1_DATA_RATE_SHIFT : Nat
  MMA8653FC_XYZ_DATA_CFG_RANGE_MASK : Nat
  MMA8653FC_XYZ_DATA_CFG_RANGE_SHIFT : Nat
  MMA8653FC_XYZ_DATA_CFG_2G_RANGE : Nat
  MMA8653FC_XYZ_DATA_CFG_4G_RANGE : Nat
  MMA8653FC_XYZ_DATA_CFG_8G_RANGE : Nat
  MMA8653FC_CTRL_REG2_ACTIVEPOW_MASK : Nat
  MMA8653FC_CTRL_REG2_ACTIVEPOW_SHIFT : Nat
  MMA8653FC_CTRL_REG3_POLARITY_MASK : Nat
  MMA8653FC_CTRL_REG3_POLARITY_SHIFT : Nat
  MMA8653FC_CTRL_REG3_PINMODE_MASK : Nat
  MMA8653FC_CTRL_REG3_PINMODE_SHIFT : Nat
  MMA8653FC_CTRL_REG4_DRDY_INT_MASK : Nat
  MMA8653FC_CTRL_REG4_DRDY_INT_SHIFT : Nat
  MMA8653FC_CTRL_REG5_DRDY_INTSEL_MASK : Nat
  MMA8653FC_CTRL_REG5_DRDY_INTSEL_SHIFT : Nat

/-- One instance of the header parameters: the register map of the MMA8653FC data sheet
that `app_main.c` refers to. It is the concrete input of the evaluated examples. -/
def datasheet : RegDefs where
  MMA8653FC_SLAVE_ADDRESS_READ := 0x3B
  MMA8653FC_SLAVE_ADDRESS_WRITE := 0x3A
  MMA8653FC_REGADDR_STATUS := 0x00
  MMA8653FC_REGADDR_SYSMOD := 0x0B
  MMA8653FC_REGADDR_WHO_AM_I := 0x0D
  MMA8653FC_REGADDR_XYZ_DATA_CFG := 0x0E
  MMA8653FC_REGADDR_CTRL_REG1 := 0x2A
  MMA8653FC_REGADDR_CTRL_REG2 := 0x2B
  MMA8653FC_REGADDR_CTRL_REG3 := 0x2C
  MMA8653FC_REGADDR_CTRL_REG4 := 0x2D
  MMA8653FC_REGADDR_CTRL_REG5 := 0x2E
  MMA8653FC_SYSMOD_MOD_STANDBY := 0x00
  MMA8653FC_CTRL_REG1_SAMODE_MASK := 0x01
  MMA8653FC_CTRL_REG1_SAMODE_SHIFT := 0
  MMA8653FC_CTRL_REG1_SAMODE_STANDBY := 0x00
  MMA8653FC_CTRL_REG1_SAMODE_ACTIVE := 0x01
  MMA8653FC_CTRL_REG1_DATA_RATE_MASK := 0x38
  MMA8653FC_CTRL_REG1_DATA_RATE_SHIFT := 3
  MMA8653FC_XYZ_DATA_CFG_RANGE_MASK := 0x03
  MMA8653FC_XYZ_DATA_CFG_RANGE_SHIFT := 0
  MMA8653FC_XYZ_DATA_CFG_2G_RANGE := 0x00
  MMA8653FC_XYZ_DATA_CFG_4G_RANGE := 0x01
  MMA8653FC_XYZ_DATA_CFG_8G_RANGE := 0x02
  MMA8653FC_CTRL_REG2_ACTIVEPOW_MASK := 0x03
  MMA8653FC_CTRL_REG2_ACTIVEPOW_SHIFT := 0
  MMA8653FC_CTRL_REG3_POLARITY_MASK := 0x02
  MMA8653FC_CTRL_REG3_POLARITY_SHIFT := 1
  MMA8653FC_CTRL_REG3_PINMODE_MASK := 0x01
  MMA8653FC_CTRL_REG3_PINMODE_SHIFT := 0
  MMA8653FC_CTRL_REG4_DRDY_INT_MASK := 0x01
  MMA8653FC_CTRL_REG4_DRDY_INT_SHIFT := 0
  MMA8653FC_CTRL_REG5_DRDY_INTSEL_MASK := 0x01
  MMA8653FC_CTRL_REG5_DRDY_INTSEL_SHIFT := 0

/-- Flag `I2C_FLAG_WRITE_READ` of the vendor header `em_i2c.h`. -/
def I2C_FLAG_WRITE_READ : Nat := 0x0004

/-- Flag `I2C_FLAG_WRITE_WRITE` of the vendor header `em_i2c.h`. -/
def I2C_FLAG_WRITE_WRITE : Nat := 0x0008

/-- The transfer descriptor `I2C_TransferSeq_TypeDef`: device address, flags and two
buffer segments. A segment `buf[j]` is the list of its `len` data bytes. -/
structure I2C_TransferSeq where
  addr : Nat
  flags : Nat
  buf0 : List Nat
  buf1 : List Nat
deriving DecidableEq, Repr

/-- The data bytes that a transfer descriptor sends to the device, after the vendor header
`em_i2c.h`: a write-then-read transfer sends its first buffer segment (and receives into the
second); a write-write transfer sends its first buffer segment followed by its second. -/
def transmittedBytes (seq : I2C_TransferSeq) : List Nat :=
  if seq.flags = I2C_FLAG_WRITE_WRITE then seq.buf0 ++ seq.buf1
  else if seq.flags = I2C_FLAG_WRITE_READ then seq.buf0
  else []

/-- State on the far side of the bus: the register file of the sensor (`regs a` is the
content of the register at address `a`) and the transactions issued so far, oldest first. -/
structure Bus where
  regs : Nat → Nat
  log : List I2C_TransferSeq

/-- Modelled from the spec: the effect on the sensor of the data bytes of a write
transaction. The sensor keeps a register pointer that the address byte sets and that moves
on by one, modulo 256, with each data byte: the bytes `vs` are stored in the registers at
the successive addresses from `a` on. -/
def storeBytes (regs : Nat → Nat) (a : Nat) : List Nat → Nat → Nat
  | [] => regs
  | v :: vs => storeBytes (fun x => if x = a then u8 v else regs x) (u8 (a + 1)) vs

/-- Modelled from the spec: `i2c_transaction` of `i2c_handler.c`, of which only the
declaration in `i2c_handler.h` is among the sources. The bus-transaction capability
executes the descriptor against the sensor. A write-then-read transaction writes the target
address and reads back one byte, the content of that register. A write-then-write
transaction sends both buffer segments, the first and then the second (`transmittedBytes`):
the first byte sent is the register address and every further byte sent is stored, the first
of them in the addressed register and the next ones in the registers that follow. Every
descriptor is recorded, as a mock bus does. -/
def i2c_transaction (bus : Bus) (seq : I2C_TransferSeq) : I2C_TransferSeq × Bus :=
  let log := bus.log ++ [seq]
  if seq.flags = I2C_FLAG_WRITE_READ then
    match seq.buf0 with
    | a :: _ => ({ seq with buf1 := seq.buf1.set 0 (u8 (bus.regs a)) }, { bus with log := log })
    | [] => (seq, { bus with log := log })
  else if seq.flags = I2C_FLAG_WRITE_WRITE then
    match transmittedBytes seq with
    | a :: vs => (seq, { regs := storeBytes bus.regs a vs, log := log })
    | [] => (seq, { bus with log := log })
  else
    (seq, { bus with log := log })

/-- Embedding of `static uint8_t read_registry(uint8_t regAddr)`. -/
def read_registry (k : RegDefs) (bus : Bus) (regAddr : Nat) : Nat × Bus :=
  let tx_buf := [u8 regAddr]
  let rx_buf := [0]
  let seq : I2C_TransferSeq :=
    { addr := u16 k.MMA8653FC_SLAVE_ADDRESS_READ
      buf0 := tx_buf.take 1
      buf1 := rx_buf.take 1
      flags := I2C_FLAG_WRITE_READ }
  let ret := i2c_transaction bus seq
  let reg := u8 (ret.1.buf1.headD 0)
  (reg, ret.2)

/-- Embedding of `static void write_registry(uint8_t regAddr, uint8_t regVal)`. -/
def write_registry (k : RegDefs) (bus : Bus) (regAddr regVal : Nat) : Bus :=
  let tx_buf := [u8 regAddr, u8 regVal]
  let rx_buf := [0]
  let seq : I2C_TransferSeq :=
    { addr := u16 k.MMA8653FC_SLAVE_ADDRESS_WRITE
      buf0 := tx_buf.take 2
      buf1 := rx_buf.take 1
      flags := I2C_FLAG_WRITE_WRITE }
  let ret := i2c_transaction bus seq
  ret.2

/-! ## Raw sample decoder: `convert_to_g` -/

set_option linter.unusedVariables false in
/-- Embedding of `float convert_to_g(uint16_t raw_val, uint8_t sensor_scale)` over the
number type `α` that stands for `float`. The result is the returned value together with
the bus state after the register read. -/
def convert_to_g (α : Type) [IntCast α] [Div α] (k : RegDefs) (bus : Bus)
    (raw_val sensor_scale : Nat) : α × Bus :=
  let rd := read_registry k bus k.MMA8653FC_REGADDR_XYZ_DATA_CFG
  let reg := rd.1
  let reg := u8 (reg &&& cnot k.MMA8653FC_XYZ_DATA_CFG_RANGE_MASK)
  let res : α := ((convert_to_count raw_val : Int) : α)
  let res := if reg = k.MMA8653FC_XYZ_DATA_CFG_2G_RANGE then res / ((256 : Int) : α) else res
  let res := if reg = k.MMA8653FC_XYZ_DATA_CFG_4G_RANGE then res / ((128 : Int) : α) else res
  let res := if reg = k.MMA8653FC_XYZ_DATA_CFG_8G_RANGE then res / ((64 : Int) : α) else res
  (res, rd.2)

/-- The dynamic-range field of a register content: the bits selected by
`MMA8653FC_XYZ_DATA_CFG_RANGE_MASK`. -/
def rangeField (k : RegDefs) (reg : Nat) : Nat :=
  reg &&& k.MMA8653FC_XYZ_DATA_CFG_RANGE_MASK

/-- A register file that holds `cfg` in the register at address `addr` and zero in every
other register, with no transaction issued yet. -/
def singleRegBus (addr cfg : Nat) : Bus :=
  { regs := fun a => if a = addr then cfg else 0, log := [] }

/-! ## Sensor configuration -/

/-- Embedding of
`int8_t configure_xyz_data(uint8_t dataRate, uint8_t range, uint8_t powerMod)`.
The result is the return value together with the bus state afterwards. -/
def configure_xyz_data (k : RegDefs) (bus : Bus) (dataRate range powerMod : Nat) : Int × Bus :=
  let dataRate := u8 dataRate
  let range := u8 range
  let powerMod := u8 powerMod
  -- Check if sensor is in standby mode.
  let rd := read_registry k bus k.MMA8653FC_REGADDR_SYSMOD
  let regVal := rd.1
  let bus := rd.2
  if regVal ≠ k.MMA8653FC_SYSMOD_MOD_STANDBY then (-1, bus) else
  -- Set data rate.
  let rd := read_registry k bus k.MMA8653FC_REGADDR_CTRL_REG1
  let dr_regVal := rd.1
  let bus := rd.2
  let dr_regVal := u8 ((dr_regVal &&& cnot k.MMA8653FC_CTRL_REG1_DATA_RATE_MASK)
    ||| (dataRate <<< k.MMA8653FC_CTRL_REG1_DATA_RATE_SHIFT))
  let bus := write_registry k bus k.MMA8653FC_REGADDR_CTRL_REG1 dr_regVal
  -- Set dynamic range.
  let rd := read_registry k bus k.MMA8653FC_REGADDR_XYZ_DATA_CFG
  let cfg_regVal := rd.1
  let bus := rd.2
  let cfg_regVal := u8 ((cfg_regVal &&& cnot k.MMA8653FC_XYZ_DATA_CFG_RANGE_MASK)
    ||| (range <<< k.MMA8653FC_XYZ_DATA_CFG_RANGE_SHIFT))
  let bus := write_registry k bus k.MMA8653FC_REGADDR_XYZ_DATA_CFG cfg_regVal
  -- Set power mode (oversampling).
  let rd := read_registry k bus k.MMA8653FC_REGADDR_CTRL_REG2
  let pow_regVal := rd.1
  let bus := rd.2
  let pow_regVal := u8 ((pow_regVal &&& cnot k.MMA8653FC_CTRL_REG2_ACTIVEPOW_MASK)
    ||| (powerMod <<< k.MMA8653FC_CTRL_REG2_ACTIVEPOW_SHIFT))
  let bus := write_registry k bus k.MMA8653FC_REGADDR_CTRL_REG2 pow_regVal
  (0, bus)

/-- Embedding of `int8_t configure_interrupt(uint8_t polarity, uint8_t pinmode,
uint8_t interrupt, uint8_t int_select)`.
The result is the return value together with the bus state afterwards. -/
def configure_interrupt (k : RegDefs) (bus : Bus) (polarity pinmode interrupt int_select : Nat) :
    Int × Bus :=
  let polarity := u8 polarity
  let pinmode := u8 pinmode
  let interrupt := u8 interrupt
  let int_select := u8 int_select
  -- Check if sensor is in standby mode.
  let rd := read_registry k bus k.MMA8653FC_REGADDR_SYSMOD
  let regVal := rd.1
  let bus := rd.2
  if regVal ≠ k.MMA8653FC_SYSMOD_MOD_STANDBY then (-1, bus) else
  -- Configure interrupt pin pinmode and interrupt transition direction
  let rd := read_registry k bus k.MMA8653FC_REGADDR_CTRL_REG3
  let pol_regVal := rd.1
  let bus := rd.2
  let pol_regVal := u8 ((pol_regVal &&& cnot k.MMA8653FC_CTRL_REG3_POLARITY_MASK)
    ||| (polarity <<< k.MMA8653FC_CTRL_REG3_POLARITY_SHIFT))
  let pol_regVal := u8 ((pol_regVal &&& cnot k.MMA8653FC_CTRL_REG3_PINMODE_MASK)
    ||| (pinmode <<< k.MMA8653FC_CTRL_REG3_PINMODE_SHIFT))
  let bus := write_registry k bus k.MMA8653FC_REGADDR_CTRL_REG3 pol_regVal
  -- Enable data ready interrupt
  let rd := read_registry k bus k.MMA8653FC_REGADDR_CTRL_REG4
  let dr_regVal := rd.1
  let bus := rd.2
  let dr_regVal := u8 ((dr_regVal &&& cnot k.MMA8653FC_CTRL_REG4_DRDY_INT_MASK)
    ||| (interrupt <<< k.MMA8653FC_CTRL_REG4_DRDY_INT_SHIFT))
  let bus := write_registry k bus k.MMA8653FC_REGADDR_CTRL_REG4 dr_regVal
  -- Route data ready interrupt to sensor INT1 output pin
  let rd := read_registry k bus k.MMA8653FC_REGADDR_CTRL_REG5
  let is_regVal := rd.1
  let bus := rd.2
  let is_regVal := u8 ((is_regVal &&& cnot k.MMA8653FC_CTRL_REG5_DRDY_INTSEL_MASK)
    ||| (int_select <<< k.MMA8653FC_CTRL_REG5_DRDY_INTSEL_SHIFT))
  let bus := write_registry k bus k.MMA8653FC_REGADDR_CTRL_REG5 is_regVal
  (0, bus)

/-- The register that takes the byte sent after the byte for register `a`: the one at the
following address, modulo 256. -/
def nextReg (a : Nat) : Nat := u8 (a + 1)

/-- A register file in standby on the data-sheet register map: `CTRL_REG1 = 0xC1`,
`CTRL_REG2 = 0x84`, `XYZ_DATA_CFG = 0x02`, every other register zero. -/
def standbyBus : Bus :=
  { regs := fun a => if a = 0x2A then 0xC1 else if a = 0x2B then 0x84
      else if a = 0x0E then 0x02 else 0
    log := [] }

/-- A register file whose `SYSMOD` register (data-sheet address `0x0B`) reads `0x01`, the
wake (active) mode, with `CTRL_REG1 = 0xC1` and every other register zero. -/
def activeBus : Bus :=
  { regs := fun a => if a = 0x0B then 0x01 else if a = 0x2A then 0xC1 else 0
    log := [] }

/-- Embedding of `void set_sensor_active()`. -/
def set_sensor_active (k : RegDefs) (bus : Bus) : Bus :=
  -- Change mode to ACTIVE
  let rd := read_registry k bus k.MMA8653FC_REGADDR_CTRL_REG1
  let reg_val := rd.1
  let bus := rd.2
  let reg_val := u8 ((reg_val &&& cnot k.MMA8653FC_CTRL_REG1_SAMODE_MASK)
    ||| (k.MMA8653FC_CTRL_REG1_SAMODE_ACTIVE <<< k.MMA8653FC_CTRL_REG1_SAMODE_SHIFT))
  write_registry k bus k.MMA8653FC_REGADDR_CTRL_REG1 reg_val

/-- Embedding of `void set_sensor_standby()`. -/
def set_sensor_standby (k : RegDefs) (bus : Bus) : Bus :=
  -- Change mode to STANDBY
  let rd := read_registry k bus k.MMA8653FC_REGADDR_CTRL_REG1
  let reg_val := rd.1
  let bus := rd.2
  let reg_val := u8 ((reg_val &&& cnot k.MMA8653FC_CTRL_REG1_SAMODE_MASK)
    ||| (k.MMA8653FC_CTRL_REG1_SAMODE_STANDBY <<< k.MMA8653FC_CTRL_REG1_SAMODE_SHIFT))
  write_registry k bus k.MMA8653FC_REGADDR_CTRL_REG1 reg_val

/-! ## Sample readout -/

/-- The descriptor that `read_registry` hands to the bus for register address `a`, as
issued: a write-then-read transfer of the address byte and a one-byte receive segment. -/
def readSeq (k : RegDefs) (a : Nat) : I2C_TransferSeq :=
  { addr := u16 k.MMA8653FC_SLAVE_ADDRESS_READ, flags := I2C_FLAG_WRITE_READ,
    buf0 := [u8 a], buf1 := [0] }


/-- The loop `for (i = 0; i < rxBufLen; i++)` of `read_multiple_registries`, from the loop
state `(bus, tmp, rxBuf, i)`. The counters `tmp` and `i` are `uint8_t` and wrap at 256;
`rxBufLen` is `uint16_t`. The first argument bounds the number of loop tests: the result is
`none` when the loop has not ended within that many. `rxBuf` is the array of the caller. -/
def read_multiple_registries_loop (k : RegDefs) (rxBufLen : Nat) :
    Nat → Bus → Nat → List Nat → Nat → Option (List Nat × Bus)
  | 0, _, _, _, _ => none
  | fuel + 1, bus, tmp, rxBuf, i =>
    if i < rxBufLen then
      let rd := read_registry k bus tmp
      let new_addr := rd.1
      let rxBuf := rxBuf.set i new_addr
      let tmp := u8 (tmp + 1)
      read_multiple_registries_loop k rxBufLen fuel rd.2 tmp rxBuf (u8 (i + 1))
    else
      some (rxBuf, bus)

/-- Embedding of `static void read_multiple_registries(uint8_t startRegAddr, uint8_t *rxBuf,
uint16_t rxBufLen)`. The result is the buffer and the bus state at return, or `none` when
the loop has not ended within `fuel` tests. -/
def read_multiple_registries (k : RegDefs) (fuel : Nat) (bus : Bus) (startRegAddr : Nat)
    (rxBuf : List Nat) (rxBufLen : Nat) : Option (List Nat × Bus) :=
  let tmp := u8 startRegAddr
  read_multiple_registries_loop k (u16 rxBufLen) fuel bus tmp rxBuf 0

/-- Modelled from the spec: the type `xyz_rawdata_t` of `mma8653fc_driver.h`, which is not
among the sources. A raw sample is a tuple of `status`, an unsigned 8-bit value, and
`out_x`, `out_y`, `out_z`, unsigned 16-bit left-justified two's-complement values. -/
structure xyz_rawdata_t where
  status : Nat
  out_x : Nat
  out_y : Nat
  out_z : Nat
deriving DecidableEq, Repr

/-- Embedding of `xyz_rawdata_t get_xyz_data()`. The local array `rx_buf[7]` starts with
unspecified content, given as `rx_buf`. The result is the sample and the bus state at
return, or `none` when the read loop has not ended within `fuel` tests. -/
def get_xyz_data (k : RegDefs) (fuel : Nat) (bus : Bus) (rx_buf : List Nat) :
    Option (xyz_rawdata_t × Bus) :=
  match read_multiple_registries k fuel bus k.MMA8653FC_REGADDR_STATUS rx_buf 7 with
  | none => none
  | some (rx_buf, bus) =>
    some ({ status := u8 (rx_buf.getD 0 0)
            out_x := u16 (u16 (rx_buf.getD 1 0 <<< 8) ||| (0x0000 ||| rx_buf.getD 2 0))
            out_y := u16 (u16 (rx_buf.getD 3 0 <<< 8) ||| (0x0000 ||| rx_buf.getD 4 0))
            out_z := u16 (u16 (rx_buf.getD 5 0 <<< 8) ||| (0x0000 ||| rx_buf.getD 6 0)) }, bus)

/-- A register file on the data-sheet register map that holds one ready sample:
`STATUS = 0x0F`, `OUT_X = 0x4000`, `OUT_Y = 0xFFC0`, `OUT_Z = 0x8000` in the registers
`0x00` to `0x06`, every other register zero. -/
def sampleBus : Bus :=
  { regs := fun a => if a = 0 then 0x0F else if a = 1 then 0x40 else if a = 3 then 0xFF
      else if a = 4 then 0xC0 else if a = 5 then 0x80 else 0
    log := [] }

/-! ## Windowed energy analyzer: `calc_signal_energy` -/

/-- Embedding of `float calc_signal_energy(float buf[], uint32_t num_elements)` over the
number type `α` that stands for `float`. `buf[i]` is `buf[i]?`: a read outside the buffer
gives `none`. Each `for (i = 0; i < num_elements; i++)` loop is a left fold over the indices
`0, ..., num_elements - 1`. -/
def calc_signal_energy (α : Type) [Zero α] [Add α] [Sub α] [Mul α] [Div α] [NatCast α]
    (buf : List α) (num_elements : Nat) : Option α := do
  let num_elements := u32 num_elements
  -- signal_bias = signal_energy = res = 0;
  let signal_bias ← (List.range num_elements).foldlM
    (fun signal_bias i => do
      let x ← buf[i]?
      pure (signal_bias + x)) (0 : α)
  let signal_bias := signal_bias / (num_elements : α)
  (List.range num_elements).foldlM
    (fun signal_energy i => do
      let x ← buf[i]?
      let res := x - signal_bias -- Subtract bias
      pure (signal_energy + res * res)) (0 : α)

/-- The energy of a window in the words of the specification: with `mean` the arithmetic
mean of all samples, the sum of `(sample - mean)²` over all samples. -/
def energySpec (samples : List ℚ) : ℚ :=
  let mean := samples.sum / (samples.length : ℚ)
  (samples.map (fun sample => (sample - mean) ^ 2)).sum

/-! ## Acquisition loop -/

/-- The window length `ACC_XYZ_DATA_LEN` of `app_main.h`. -/
def ACC_XYZ_DATA_LEN : Nat := 40

/-- The range argument `SENSOR_DATA_RANGE` of `app_main.h`. -/
def SENSOR_DATA_RANGE (k : RegDefs) : Nat := k.MMA8653FC_XYZ_DATA_CFG_2G_RANGE

/-- The static state of `mma_data_ready_loop`: the three window buffers `buf1_x`, `buf1_y`,
`buf1_z` (arrays of `ACC_XYZ_DATA_LEN` values of type `float`) and the `uint16_t` write
index `buf_index`. -/
structure LoopState (α : Type) where
  buf1_x : List α
  buf1_y : List α
  buf1_z : List α
  buf_index : Nat

/-- The state at program start: zero-initialised buffers and `buf_index = 0`. -/
def LoopState.init (α : Type) [Zero α] : LoopState α :=
  { buf1_x := List.replicate ACC_XYZ_DATA_LEN 0
    buf1_y := List.replicate ACC_XYZ_DATA_LEN 0
    buf1_z := List.replicate ACC_XYZ_DATA_LEN 0
    buf_index := 0 }

/-- What one loop iteration hands to the output sink: the `info1` line of a buffered sample,
with the index and the three buffer entries it reads (`none` for a read outside the buffer),
or the energies `enX`, `enY`, `enZ` of the `info2` lines. -/
inductive LogEvent (α : Type) where
  | sample (idx : Nat) (x y z : Option α)
  | energy (enX enY enZ : Option α)

/-- Whether an output event is an emitted energy result. -/
def LogEvent.isEnergy {α : Type} : LogEvent α → Bool
  | LogEvent.sample _ _ _ _ => false
  | LogEvent.energy _ _ _ => true

/-- The body of the `for (;;)` loop of `mma_data_ready_loop` after `rawData = get_xyz_data()`:
the new loop state, the bus state, and the output of this iteration. -/
def loop_body (α : Type) [Zero α] [Add α] [Sub α] [Mul α] [Div α] [NatCast α] [IntCast α]
    (k : RegDefs) (st : LoopState α) (bus : Bus) (rawData : xyz_rawdata_t) :
    LoopState α × Bus × List (LogEvent α) :=
  if rawData.status = 15 then
    if st.buf_index < ACC_XYZ_DATA_LEN then
      -- Convert to engineering value
      let gx := convert_to_g α k bus rawData.out_x (SENSOR_DATA_RANGE k)
      let buf1_x := st.buf1_x.set st.buf_index gx.1
      let gy := convert_to_g α k gx.2 rawData.out_y (SENSOR_DATA_RANGE k)
      let buf1_y := st.buf1_y.set st.buf_index gy.1
      let gz := convert_to_g α k gy.2 rawData.out_z (SENSOR_DATA_RANGE k)
      let buf1_z := st.buf1_z.set st.buf_index gz.1
      let buf_index := u16 (st.buf_index + 1)
      ({ buf1_x := buf1_x, buf1_y := buf1_y, buf1_z := buf1_z, buf_index := buf_index }, gz.2,
        [LogEvent.sample buf_index buf1_x[buf_index]? buf1_y[buf_index]? buf1_z[buf_index]?])
    else
      -- Signal analysis
      let enX := calc_signal_energy α st.buf1_x st.buf_index
      let enY := calc_signal_energy α st.buf1_y st.buf_index
      let enZ := calc_signal_energy α st.buf1_z st.buf_index
      ({ st with buf_index := 0 }, bus, [LogEvent.energy enX enY enZ])
  else
    (st, bus, [])

/-- One iteration of the `for (;;)` loop of `mma_data_ready_loop`, the delay aside: fetch a
sample, then run the body. It is `none` when the fetch has not returned within `fuel` loop
tests. -/
def loop_iteration (α : Type) [Zero α] [Add α] [Sub α] [Mul α] [Div α] [NatCast α] [IntCast α]
    (k : RegDefs) (fuel : Nat) (st : LoopState α) (bus : Bus) (rx_buf : List Nat) :
    Option (LoopState α × Bus × List (LogEvent α)) :=
  match get_xyz_data k fuel bus rx_buf with
  | none => none
  | some (rawData, bus) => some (loop_body α k st bus rawData)

/-- A finite sequence of loop iterations, given the samples they fetch, oldest first: the
loop state, the bus state and the output collected so far are carried from one iteration
to the next. -/
def run (α : Type) [Zero α] [Add α] [Sub α] [Mul α] [Div α] [NatCast α] [IntCast α]
    (k : RegDefs) (s : LoopState α × Bus × List (LogEvent α)) (samples : List xyz_rawdata_t) :
    LoopState α × Bus × List (LogEvent α) :=
  samples.foldl
    (fun s rawData =>
      let r := loop_body α k s.1 s.2.1 rawData
      (r.1, r.2.1, s.2.2 ++ r.2.2))
    s

/-- The number of status-ready samples (status byte 15) in a sequence of fetched samples. -/
def countReady (samples : List xyz_rawdata_t) : Nat :=
  (samples.filter (fun d => d.status = 15)).length

/-- The value that a loop iteration buffers for a raw axis value: the result of
`convert_to_g` with the range argument `SENSOR_DATA_RANGE`. -/
def decode (α : Type) [IntCast α] [Div α] (k : RegDefs) (bus : Bus) (raw : Nat) : α :=
  (convert_to_g α k bus raw (SENSOR_DATA_RANGE k)).1

/-- The window after the ready samples `l` were stored over the window `old`, one entry
each and in arrival order from entry 0 on: the decoded samples, then the entries of `old`
that no sample has reached, with the index at the number of samples. -/
def storeWindow (α : Type) [IntCast α] [Div α] (k : RegDefs) (bus : Bus) (old : LoopState α)
    (l : List xyz_rawdata_t) : LoopState α :=
  { buf1_x := l.map (fun d => decode α k bus d.out_x) ++ old.buf1_x.drop l.length
    buf1_y := l.map (fun d => decode α k bus d.out_y) ++ old.buf1_y.drop l.length
    buf1_z := l.map (fun d => decode α k bus d.out_z) ++ old.buf1_z.drop l.length
    buf_index := l.length }

/-- The `i`-th of a sequence of distinct ready samples: status byte 15 and the count `i + 1`
on every axis. -/
def rampSample (i : Nat) : xyz_rawdata_t :=
  { status := 15, out_x := (i + 1) <<< 6, out_y := (i + 1) <<< 6, out_z := (i + 1) <<< 6 }

/-- A fetched sample that is ready: status byte 15, `out_x = 0x4000` (count 256),
`out_y = 0xFFC0` (count -1), `out_z = 0x8000` (count -512). -/
def readySample : xyz_rawdata_t :=
  { status := 15, out_x := 0x4000, out_y := 0xFFC0, out_z := 0x8000 }

/-- A fetched sample that is not ready: status byte 7, with the raw values of
`readySample`. -/
def staleSample : xyz_rawdata_t :=
  { status := 7, out_x := 0x4000, out_y := 0xFFC0, out_z := 0x8000 }

/-- Whether every buffer read behind an output event was inside its buffer: the three
entries of an `info1` line were read, and the three energies were computed without a read
outside the buffer. -/
def LogEvent.readsInRange {α : Type} : LogEvent α → Bool
  | LogEvent.sample _ x y z => x.isSome && y.isSome && z.isSome
  | LogEvent.energy enX enY enZ => enX.isSome && enY.isSome && enZ.isSome

/-- The index that an `info1` line prints and reads the buffers at. -/
def LogEvent.sampleIndex {α : Type} : LogEvent α → Option Nat
  | LogEvent.sample idx _ _ _ => some idx
  | LogEvent.energy _ _ _ => none

/-- The indices at which the body of the loop accesses `buf1_x`, `buf1_y`, `buf1_z`, in
program order, from the value of `buf_index` at the start of the iteration: on a ready
sample with room in the window the three writes at `buf_index` and, after the increment,
the three reads of the `info1` line at the new `buf_index`; on a ready sample with a full
window the reads `buf[i]` for `i < num_elements` of the two loops of `calc_signal_energy`,
once per buffer; none on a sample that is not ready. -/
def loop_body_indices (buf_index : Nat) (rawData : xyz_rawdata_t) : List Nat :=
  if rawData.status = 15 then
    if buf_index < ACC_XYZ_DATA_LEN then
      [buf_index, buf_index, buf_index]
        ++ [u16 (buf_index + 1), u16 (buf_index + 1), u16 (buf_index + 1)]
    else
      (List.range (u32 buf_index) ++ List.range (u32 buf_index))
        ++ (List.range (u32 buf_index) ++ List.range (u32 buf_index))
        ++ (List.range (u32 buf_index) ++ List.range (u32 buf_index))
  else
    []

/-! ## Theorems: `convert_to_count` -/

theorem u8_u8 (n : Nat) : u8 (u8 n) = u8 n := by
  unfold u8; omega

theorem u8_lt (n : Nat) : u8 n < 256 := by
  unfold u8; omega

theorem u8_of_lt {n : Nat} (h : n < 256) : u8 n = n := by
  unfold u8; omega

set_option maxRecDepth 100000 in
/-- The body of `convert_to_count` on every 10-bit field, by exhaustion. -/
theorem count_of_field (f : Fin 1024) :
    toInt16 (if f.val &&& (1 <<< 9) = 0 then (f.val : Int)
      else toInt32 (u32 ((2 ^ 32 - 1) * u32 (notValueLoop f.val + 1)))) = signExtend10 f.val := by
  revert f; decide

theorem convert_to_count_eq_signExtend10 (r : Nat) (hr : r < 65536) :
    convert_to_count r = signExtend10 (r >>> 6) := by
  have hf : r >>> 6 < 1024 := by
    rw [Nat.shiftRight_eq_div_pow]; omega
  have h1 : u16 (u16 r >>> 6) = r >>> 6 := by
    have h2 : u16 r = r := by unfold u16; omega
    rw [h2]; unfold u16; omega
  have h := count_of_field ⟨r >>> 6, hf⟩
  simp only [convert_to_count, h1]
  exact h

/-- C1: for every 16-bit raw value `r`, whatever its low 6 bits, `convert_to_count r` is
the sign extension of the 10-bit field `f = r >> 6`: it is `f` when `f < 512` and
`f - 1024` when `f >= 512`, and so lies in `[-512, 511]`. -/
theorem convert_to_count_sign_extends (r : Nat) (hr : r < 65536) :
    convert_to_count r
        = (if r >>> 6 < 512 then ((r >>> 6 : Nat) : Int) else ((r >>> 6 : Nat) : Int) - 1024)
      ∧ -512 ≤ convert_to_count r ∧ convert_to_count r ≤ 511 := by
  have hf : r >>> 6 < 1024 := by
    rw [Nat.shiftRight_eq_div_pow]; omega
  rw [convert_to_count_eq_signExtend10 r hr]
  unfold signExtend10
  refine ⟨rfl, ?_, ?_⟩ <;> split <;> omega

/-- Witness of C1 at the raw value `0xFFFF`: field 1023 with all low bits set. -/
theorem convert_to_count_sign_extends_witness :
    (65535 : Nat) < 65536 ∧
      (convert_to_count 65535
          = (if 65535 >>> 6 < 512 then ((65535 >>> 6 : Nat) : Int)
              else ((65535 >>> 6 : Nat) : Int) - 1024)
        ∧ -512 ≤ convert_to_count 65535 ∧ convert_to_count 65535 ≤ 511) :=
  ⟨by decide, convert_to_count_sign_extends 65535 (by decide)⟩

/-- C2, as stated, fails: the pattern `0x3FF << 6` has field 1023, whose sign bit is set,
and decodes to `-1`, not to `511`. -/
theorem convert_to_count_0x3FF_not_511 :
    convert_to_count (0x3FF <<< 6) = -1 ∧ convert_to_count (0x3FF <<< 6) ≠ 511 := by
  decide

/-- C2, amended: `convert_to_count 0 = 0`; the maximum positive 10-bit pattern is
`0x1FF << 6` (field 511) and decodes to `511`; field 512 (`0x200 << 6 = 0x8000`) decodes
to `-512`; and `0x3FF << 6` (field 1023) decodes to `-1`. -/
theorem convert_to_count_boundaries :
    convert_to_count 0 = 0 ∧ convert_to_count (0x1FF <<< 6) = 511 ∧
      (0x200 <<< 6 = 0x8000 ∧ convert_to_count (0x200 <<< 6) = -512) ∧
      convert_to_count (0x3FF <<< 6) = -1 := by
  decide

/-! ## Theorems: bus primitives -/

theorem read_registry_fst (k : RegDefs) (bus : Bus) (a : Nat) :
    (read_registry k bus a).1 = u8 (bus.regs (u8 a)) := by
  simp [read_registry, i2c_transaction, u8_u8]

theorem read_registry_regs (k : RegDefs) (bus : Bus) (a : Nat) :
    (read_registry k bus a).2.regs = bus.regs := by
  simp [read_registry, i2c_transaction]

theorem read_registry_log (k : RegDefs) (bus : Bus) (a : Nat) :
    (read_registry k bus a).2.log
      = bus.log ++ [{ addr := u16 k.MMA8653FC_SLAVE_ADDRESS_READ, flags := I2C_FLAG_WRITE_READ,
                      buf0 := [u8 a], buf1 := [0] }] := by
  simp [read_registry, i2c_transaction]

/-- The register effect of `write_registry`: the addressed register takes the value, and
the register that follows it takes the zero byte that the descriptor sends as well. -/
theorem write_registry_regs (k : RegDefs) (bus : Bus) (a v : Nat) :
    (write_registry k bus a v).regs
      = fun x => if x = u8 (u8 a + 1) then 0 else if x = u8 a then u8 v else bus.regs x := by
  simp [write_registry, i2c_transaction, transmittedBytes, storeBytes, I2C_FLAG_WRITE_WRITE,
    I2C_FLAG_WRITE_READ, u8_u8]
  rfl

/-! ## Theorems: bit arithmetic of masked fields -/

theorem testBit_cnot (x i : Nat) :
    (cnot x).testBit i = (decide (i < 32) && !x.testBit i) := by
  have hx : x % 2 ^ 32 < 2 ^ 32 := Nat.mod_lt _ (by decide)
  have h : cnot x = 2 ^ 32 - (x % 2 ^ 32 + 1) := by unfold cnot; omega
  rw [h, Nat.testBit_two_pow_sub_succ hx, Nat.testBit_mod_two_pow]
  by_cases hi : i < 32 <;> simp [hi]

theorem testBit_u8 (x i : Nat) : (u8 x).testBit i = (decide (i < 8) && x.testBit i) := by
  unfold u8; exact Nat.testBit_mod_two_pow x 8 i

/-- Clearing the bits of a mask leaves none of them set. -/
theorem cleared_and_mask (x m : Nat) : u8 (x &&& cnot m) &&& m = 0 := by
  apply Nat.eq_of_testBit_eq
  intro i
  simp only [Nat.testBit_and, testBit_u8, testBit_cnot, Nat.zero_testBit]
  cases x.testBit i <;> cases m.testBit i <;> simp

/-- A non-zero code that lies inside a mask is never the value of a byte in which the bits
of that mask were cleared. -/
theorem cleared_ne_code (x m c : Nat) (hc : c ≠ 0) (hin : c &&& m = c) :
    u8 (x &&& cnot m) ≠ c := by
  intro h
  apply hc
  rw [← hin, ← h]
  exact cleared_and_mask x m

/-! ## Theorems: `convert_to_g` -/

/-- The value of `convert_to_g` in terms of `c`, the value that it compares with the three
range codes: the content of `XYZ_DATA_CFG` with the bits of the range mask cleared. -/
theorem convert_to_g_fst (α : Type) [IntCast α] [Div α] (k : RegDefs) (bus : Bus) (r s : Nat)
    (c : Nat)
    (hc : c = u8 (u8 (bus.regs (u8 k.MMA8653FC_REGADDR_XYZ_DATA_CFG))
                &&& cnot k.MMA8653FC_XYZ_DATA_CFG_RANGE_MASK)) :
    (convert_to_g α k bus r s).1 =
      (if c = k.MMA8653FC_XYZ_DATA_CFG_8G_RANGE then
        (if c = k.MMA8653FC_XYZ_DATA_CFG_4G_RANGE then
          (if c = k.MMA8653FC_XYZ_DATA_CFG_2G_RANGE
            then ((convert_to_count r : Int) : α) / ((256 : Int) : α)
            else ((convert_to_count r : Int) : α)) / ((128 : Int) : α)
         else (if c = k.MMA8653FC_XYZ_DATA_CFG_2G_RANGE
            then ((convert_to_count r : Int) : α) / ((256 : Int) : α)
            else ((convert_to_count r : Int) : α))) / ((64 : Int) : α)
       else
        (if c = k.MMA8653FC_XYZ_DATA_CFG_4G_RANGE then
          (if c = k.MMA8653FC_XYZ_DATA_CFG_2G_RANGE
            then ((convert_to_count r : Int) : α) / ((256 : Int) : α)
            else ((convert_to_count r : Int) : α)) / ((128 : Int) : α)
         else (if c = k.MMA8653FC_XYZ_DATA_CFG_2G_RANGE
            then ((convert_to_count r : Int) : α) / ((256 : Int) : α)
            else ((convert_to_count r : Int) : α)))) := by
  subst hc
  simp only [convert_to_g, read_registry_fst]

/-- With range codes for 4g and 8g that are non-zero values inside the range mask, the
divisions by 128 and by 64 are never reached: the result is the count divided by 256 when
the masked register equals the 2g code, and the unscaled count otherwise. -/
theorem convert_to_g_only_2g_branch (α : Type) [IntCast α] [Div α] (k : RegDefs) (bus : Bus)
    (r s : Nat)
    (h4 : k.MMA8653FC_XYZ_DATA_CFG_4G_RANGE ≠ 0)
    (h4in : k.MMA8653FC_XYZ_DATA_CFG_4G_RANGE &&& k.MMA8653FC_XYZ_DATA_CFG_RANGE_MASK
              = k.MMA8653FC_XYZ_DATA_CFG_4G_RANGE)
    (h8 : k.MMA8653FC_XYZ_DATA_CFG_8G_RANGE ≠ 0)
    (h8in : k.MMA8653FC_XYZ_DATA_CFG_8G_RANGE &&& k.MMA8653FC_XYZ_DATA_CFG_RANGE_MASK
              = k.MMA8653FC_XYZ_DATA_CFG_8G_RANGE) :
    (convert_to_g α k bus r s).1 =
      if u8 (u8 (bus.regs (u8 k.MMA8653FC_REGADDR_XYZ_DATA_CFG))
              &&& cnot k.MMA8653FC_XYZ_DATA_CFG_RANGE_MASK) = k.MMA8653FC_XYZ_DATA_CFG_2G_RANGE
      then ((convert_to_count r : Int) : α) / ((256 : Int) : α)
      else ((convert_to_count r : Int) : α) := by
  rw [convert_to_g_fst α k bus r s _ rfl]
  rw [if_neg (cleared_ne_code _ _ _ h8 h8in), if_neg (cleared_ne_code _ _ _ h4 h4in)]

/-- When the content of `XYZ_DATA_CFG` with the range-mask bits cleared is none of the three
range codes, `convert_to_g` returns the count with no division applied. -/
theorem convert_to_g_fallthrough (α : Type) [IntCast α] [Div α] (k : RegDefs) (bus : Bus)
    (r s : Nat)
    (h2 : u8 (u8 (bus.regs (u8 k.MMA8653FC_REGADDR_XYZ_DATA_CFG))
              &&& cnot k.MMA8653FC_XYZ_DATA_CFG_RANGE_MASK) ≠ k.MMA8653FC_XYZ_DATA_CFG_2G_RANGE)
    (h4 : u8 (u8 (bus.regs (u8 k.MMA8653FC_REGADDR_XYZ_DATA_CFG))
              &&& cnot k.MMA8653FC_XYZ_DATA_CFG_RANGE_MASK) ≠ k.MMA8653FC_XYZ_DATA_CFG_4G_RANGE)
    (h8 : u8 (u8 (bus.regs (u8 k.MMA8653FC_REGADDR_XYZ_DATA_CFG))
              &&& cnot k.MMA8653FC_XYZ_DATA_CFG_RANGE_MASK) ≠ k.MMA8653FC_XYZ_DATA_CFG_8G_RANGE) :
    (convert_to_g α k bus r s).1 = ((convert_to_count r : Int) : α) := by
  rw [convert_to_g_fst α k bus r s _ rfl, if_neg h8, if_neg h4, if_neg h2]

theorem convert_to_count_0x4000 : convert_to_count 0x4000 = 256 := by decide

set_option maxRecDepth 100000 in
/-- C3, evaluated on the data-sheet register map at `XYZ_DATA_CFG = 0x04` and raw value
`0x4000`: the dynamic-range field holds the 2g code and the count divided by 256 is `1`, yet
`convert_to_g` returns the unscaled count `256`, in `float` and in exact arithmetic. -/
theorem convert_to_g_2g_unscaled_at_0x04 :
    rangeField datasheet 0x04 = datasheet.MMA8653FC_XYZ_DATA_CFG_2G_RANGE ∧
      (F32.ofInt (convert_to_count 0x4000) / F32.ofInt 256 = F32.ofInt 1 ∧
        (convert_to_g F32 datasheet (singleRegBus 0x0E 0x04) 0x4000 0).1 = F32.ofInt 256) ∧
      (((convert_to_count 0x4000 : Int) : ℚ) / 256 = 1 ∧
        (convert_to_g ℚ datasheet (singleRegBus 0x0E 0x04) 0x4000 0).1 = 256) := by
  refine ⟨by decide, by decide, ?_, ?_⟩
  · rw [convert_to_count_0x4000]; norm_num
  · rw [convert_to_g_fst ℚ datasheet _ _ _ 4 (by decide), convert_to_count_0x4000]
    rw [if_neg (by decide), if_neg (by decide), if_neg (by decide)]
    norm_num

set_option maxRecDepth 100000 in
/-- C4, evaluated on the data-sheet register map at raw value `0x4000` (count 256): with
the 4g code in `XYZ_DATA_CFG` the count divided by 128 is `2`, with the 8g code the count
divided by 64 is `4`, yet `convert_to_g` returns `1` (the count divided by 256) in both,
in `float` and in exact arithmetic. -/
theorem convert_to_g_4g_8g_scaled_by_256 :
    (rangeField datasheet 0x01 = datasheet.MMA8653FC_XYZ_DATA_CFG_4G_RANGE ∧
        (F32.ofInt (convert_to_count 0x4000) / F32.ofInt 128 = F32.ofInt 2 ∧
          (convert_to_g F32 datasheet (singleRegBus 0x0E 0x01) 0x4000 0).1 = F32.ofInt 1) ∧
        (((convert_to_count 0x4000 : Int) : ℚ) / 128 = 2 ∧
          (convert_to_g ℚ datasheet (singleRegBus 0x0E 0x01) 0x4000 0).1 = 1)) ∧
      (rangeField datasheet 0x02 = datasheet.MMA8653FC_XYZ_DATA_CFG_8G_RANGE ∧
        (F32.ofInt (convert_to_count 0x4000) / F32.ofInt 64 = F32.ofInt 4 ∧
          (convert_to_g F32 datasheet (singleRegBus 0x0E 0x02) 0x4000 0).1 = F32.ofInt 1) ∧
        (((convert_to_count 0x4000 : Int) : ℚ) / 64 = 4 ∧
          (convert_to_g ℚ datasheet (singleRegBus 0x0E 0x02) 0x4000 0).1 = 1)) := by
  refine ⟨⟨by decide, by decide, ?_, ?_⟩, ⟨by decide, by decide, ?_, ?_⟩⟩
  · rw [convert_to_count_0x4000]; norm_num
  · rw [convert_to_g_only_2g_branch ℚ datasheet _ _ _ (by decide) (by decide) (by decide)
      (by decide), convert_to_count_0x4000, if_pos (by decide)]
    norm_num
  · rw [convert_to_count_0x4000]; norm_num
  · rw [convert_to_g_only_2g_branch ℚ datasheet _ _ _ (by decide) (by decide) (by decide)
      (by decide), convert_to_count_0x4000, if_pos (by decide)]
    norm_num

set_option maxRecDepth 100000 in
/-- C5, evaluated on the data-sheet register map at `XYZ_DATA_CFG = 0x03` and raw value
`0x4000`: the register value, which is its range field, is none of the three codes and the
unscaled count is `256`, yet `convert_to_g` returns `1`, the count divided by 256, in
`float` and in exact arithmetic. -/
theorem convert_to_g_unknown_range_scaled :
    ((0x03 ≠ datasheet.MMA8653FC_XYZ_DATA_CFG_2G_RANGE ∧
        0x03 ≠ datasheet.MMA8653FC_XYZ_DATA_CFG_4G_RANGE ∧
        0x03 ≠ datasheet.MMA8653FC_XYZ_DATA_CFG_8G_RANGE) ∧
      rangeField datasheet 0x03 = 0x03) ∧
      (F32.ofInt (convert_to_count 0x4000) = F32.ofInt 256 ∧
        (convert_to_g F32 datasheet (singleRegBus 0x0E 0x03) 0x4000 0).1 = F32.ofInt 1) ∧
      (((convert_to_count 0x4000 : Int) : ℚ) = 256 ∧
        (convert_to_g ℚ datasheet (singleRegBus 0x0E 0x03) 0x4000 0).1 = 1) := by
  refine ⟨by decide, by decide, ?_, ?_⟩
  · rw [convert_to_count_0x4000]; norm_num
  · rw [convert_to_g_fst ℚ datasheet _ _ _ 0 (by decide), convert_to_count_0x4000]
    rw [if_neg (by decide), if_neg (by decide), if_pos (by decide)]
    norm_num

/-! ## Theorems: `calc_signal_energy` -/

/-- A fold over the indices `0, ..., n - 1` that reads `buf[i]` at each one is the fold over
the first `n` elements of the buffer, as long as they exist. -/
theorem foldlM_range_read (buf : List ℚ) (g : ℚ → ℚ → ℚ) (n : Nat) (hn : n ≤ buf.length)
    (init : ℚ) :
    (List.range n).foldlM (fun acc i => buf[i]?.bind fun x => some (g acc x)) init
      = some ((buf.take n).foldl g init) := by
  induction n with
  | zero => simp
  | succ m ih =>
    have hm : m < buf.length := hn
    have ht : buf.take (m + 1) = buf.take m ++ [buf[m]] := by
      rw [List.take_succ, List.getElem?_eq_getElem hm]; rfl
    rw [List.range_succ, List.foldlM_append, ih (Nat.le_of_lt hm), ht, List.foldl_append]
    simp [List.getElem?_eq_getElem hm]

theorem foldl_add_map (f : ℚ → ℚ) (l : List ℚ) (a : ℚ) :
    l.foldl (fun acc x => acc + f x) a = a + (l.map f).sum := by
  induction l generalizing a with
  | nil => simp
  | cons x xs ih => simp [ih, add_assoc]

/-- The two-pass computation of `calc_signal_energy` on the first `n` samples of a buffer. -/
theorem calc_signal_energy_take (buf : List ℚ) (n : Nat) (hn : n ≤ buf.length)
    (h32 : n < 2 ^ 32) :
    calc_signal_energy ℚ buf n = some (energySpec (buf.take n)) := by
  have hu : u32 n = n := by unfold u32; omega
  have hlen : (buf.take n).length = n := by simp [hn]
  have hs := foldl_add_map (fun x => x) (buf.take n) 0
  simp only [List.map_id', zero_add] at hs
  have h1 := foldlM_range_read buf (fun a b => a + b) n hn 0
  have h2 := foldlM_range_read buf (fun a b => a + (b - (buf.take n).sum / (n : ℚ))
          * (b - (buf.take n).sum / (n : ℚ))) n hn 0
  rw [hs] at h1
  rw [foldl_add_map, zero_add] at h2
  show ((List.range (u32 n)).foldlM (fun signal_bias i => buf[i]?.bind fun x =>
        some (signal_bias + x)) (0 : ℚ)).bind (fun signal_bias =>
      (List.range (u32 n)).foldlM (fun signal_energy i => buf[i]?.bind fun x =>
        some (signal_energy + (x - signal_bias / ((u32 n : Nat) : ℚ))
          * (x - signal_bias / ((u32 n : Nat) : ℚ)))) (0 : ℚ)) = _
  rw [hu, h1, Option.some_bind, h2]
  unfold energySpec
  simp only [hlen, pow_two]

/-- C6: with arithmetic taken exactly, for every buffer of `N` samples (`N >= 1` in the
claim; the equation holds for the empty buffer as well), `calc_signal_energy` returns the sum
over all samples of `(sample - mean)²`, where `mean` is the sum of the samples divided by
`N`: the mean is computed first, then the squared deviations. -/
theorem calc_signal_energy_two_pass (buf : List ℚ) (N : Nat) (hlen : buf.length = N)
    (h32 : N < 2 ^ 32) :
    calc_signal_energy ℚ buf N
      = some ((buf.map (fun x => (x - buf.sum / (N : ℚ)) ^ 2)).sum) := by
  have h := calc_signal_energy_take buf N (le_of_eq hlen.symm) h32
  rw [← hlen, List.take_length] at h
  rw [← hlen]
  exact h

/-- Witness of C6 on the three-sample buffer `[1, 2, 6]`, whose energy is `14`. -/
theorem calc_signal_energy_two_pass_witness :
    ([(1 : ℚ), 2, 6].length = 3 ∧ 3 < 2 ^ 32) ∧
      calc_signal_energy ℚ [1, 2, 6] 3
        = some (([(1 : ℚ), 2, 6].map
            (fun x => (x - [(1 : ℚ), 2, 6].sum / ((3 : Nat) : ℚ)) ^ 2)).sum) :=
  ⟨by decide, calc_signal_energy_two_pass [1, 2, 6] 3 (by decide) (by decide)⟩

set_option maxRecDepth 100000 in
/-- C7, as stated, fails in `float` arithmetic: the quotient `1.0f / 10.0f` is the `float`
`0.1f = 13421773 * 2^(-27)`, and on the window of seven samples `0.1f` the sum rounds, the
bias differs from `0.1f`, and `calc_signal_energy` returns `7 * 2^(-54)`, not `0`. -/
theorem calc_signal_energy_constant_binary32 :
    F32.ofInt 1 / F32.ofInt 10 = F32.finite (13421773 * 2 ^ 122) ∧
      calc_signal_energy F32 (List.replicate 7 (F32.finite (13421773 * 2 ^ 122))) 7
        = some (F32.finite (7 * 2 ^ 95)) ∧
      calc_signal_energy F32 (List.replicate 7 (F32.finite (13421773 * 2 ^ 122))) 7
        ≠ some 0 := by
  decide

/-- C7, amended: with arithmetic taken exactly, for every value `c` and every length
`N >= 1`, `calc_signal_energy` on a window whose `N` samples all equal `c` returns `0`. -/
theorem calc_signal_energy_constant (c : ℚ) (N : Nat) (hN : 1 ≤ N) (h32 : N < 2 ^ 32) :
    calc_signal_energy ℚ (List.replicate N c) N = some 0 := by
  have h := calc_signal_energy_take (List.replicate N c) N (by simp) h32
  have hN0 : (N : ℚ) ≠ 0 := by
    have : (0 : ℚ) < (N : ℚ) := by exact_mod_cast hN
    exact ne_of_gt this
  rw [h]
  have htake : (List.replicate N c).take N = List.replicate N c := by
    apply List.take_of_length_le; simp
  rw [htake]
  unfold energySpec
  simp only [List.sum_replicate, List.length_replicate, List.map_replicate, smul_eq_mul,
    nsmul_eq_mul]
  have hm : (N : ℚ) * c / (N : ℚ) = c := by field_simp
  rw [hm]
  simp

/-- Witness of C7, amended, on the window of four samples `5/3`. -/
theorem calc_signal_energy_constant_witness :
    (1 ≤ 4 ∧ 4 < 2 ^ 32) ∧ calc_signal_energy ℚ (List.replicate 4 (5 / 3 : ℚ)) 4 = some 0 :=
  ⟨by decide, calc_signal_energy_constant (5 / 3) 4 (by decide) (by decide)⟩

set_option maxRecDepth 100000 in
/-- C8, as stated, fails in `float` arithmetic: on the window of 24 zeros followed by the
outlier `5.0f` the closed form is `24`, exactly and also when it is evaluated in `float`,
and `calc_signal_energy` returns `24 + 2^(-19)`, the next `float` above `24`. -/
theorem calc_signal_energy_one_outlier_binary32 :
    calc_signal_energy F32 (List.replicate (25 - 1) 0 ++ [F32.ofNat 5]) 25
        = some (F32.finite (12582913 * 2 ^ 130)) ∧
      F32.ofNat 24 = F32.finite (12582912 * 2 ^ 130) ∧
      F32.ofNat (25 - 1) * ((F32.ofNat 5 / F32.ofNat 25) * (F32.ofNat 5 / F32.ofNat 25))
          + (F32.ofNat 5 - F32.ofNat 5 / F32.ofNat 25) * (F32.ofNat 5 - F32.ofNat 5 / F32.ofNat 25)
        = F32.ofNat 24 ∧
      ((25 : ℚ) - 1) * (5 / 25) ^ 2 + (5 - 5 / 25) ^ 2 = 24 := by
  refine ⟨by decide, by decide, by decide, by norm_num⟩

/-- C8, amended: with arithmetic taken exactly, for every length `L >= 1` and every value
`v`, `calc_signal_energy` on the window of `L - 1` zeros followed by the one outlier `v`
returns `(L - 1) * m² + (v - m)²` with `m = v / L`. -/
theorem calc_signal_energy_one_outlier (L : Nat) (v : ℚ) (hL : 1 ≤ L) (h32 : L < 2 ^ 32) :
    calc_signal_energy ℚ (List.replicate (L - 1) 0 ++ [v]) L
      = some (((L : ℚ) - 1) * (v / (L : ℚ)) ^ 2 + (v - v / (L : ℚ)) ^ 2) := by
  have hlen : (List.replicate (L - 1) (0 : ℚ) ++ [v]).length = L := by
    simp; omega
  have h := calc_signal_energy_take (List.replicate (L - 1) 0 ++ [v]) L (le_of_eq hlen.symm) h32
  have htake : (List.replicate (L - 1) (0 : ℚ) ++ [v]).take L = List.replicate (L - 1) 0 ++ [v] :=
    List.take_of_length_le (le_of_eq hlen)
  rw [h, htake]
  unfold energySpec
  rw [hlen]
  have hc : ((L - 1 : Nat) : ℚ) = (L : ℚ) - 1 := by
    rw [Nat.cast_sub hL]; simp
  simp [List.sum_replicate, hc]

/-- Witness of C8, amended, on the window `[0, 0, 0, 8]`. -/
theorem calc_signal_energy_one_outlier_witness :
    (1 ≤ 4 ∧ 4 < 2 ^ 32) ∧
      calc_signal_energy ℚ (List.replicate (4 - 1) 0 ++ [8]) 4
        = some ((((4 : Nat) : ℚ) - 1) * (8 / ((4 : Nat) : ℚ)) ^ 2
            + (8 - 8 / ((4 : Nat) : ℚ)) ^ 2) :=
  ⟨by decide, calc_signal_energy_one_outlier 4 8 (by decide) (by decide)⟩

/-! ## Theorems: sensor configuration -/

/-- C9: for every register state in which the `SYSMOD` register does not read the standby
code, and for all arguments, `configure_xyz_data` and `configure_interrupt` each return
`-1`, leave every sensor register unchanged, and issue exactly one bus transaction, the
write-then-read of `SYSMOD`: no write transaction at all. -/
theorem configure_not_in_standby (k : RegDefs) (bus : Bus)
    (dataRate range powerMod polarity pinmode interrupt int_select : Nat)
    (h : (read_registry k bus k.MMA8653FC_REGADDR_SYSMOD).1 ≠ k.MMA8653FC_SYSMOD_MOD_STANDBY) :
    ((configure_xyz_data k bus dataRate range powerMod).1 = -1 ∧
      (configure_xyz_data k bus dataRate range powerMod).2.regs = bus.regs ∧
      (configure_xyz_data k bus dataRate range powerMod).2.log
        = bus.log ++ [{ addr := u16 k.MMA8653FC_SLAVE_ADDRESS_READ, flags := I2C_FLAG_WRITE_READ,
                        buf0 := [u8 k.MMA8653FC_REGADDR_SYSMOD], buf1 := [0] }]) ∧
    ((configure_interrupt k bus polarity pinmode interrupt int_select).1 = -1 ∧
      (configure_interrupt k bus polarity pinmode interrupt int_select).2.regs = bus.regs ∧
      (configure_interrupt k bus polarity pinmode interrupt int_select).2.log
        = bus.log ++ [{ addr := u16 k.MMA8653FC_SLAVE_ADDRESS_READ, flags := I2C_FLAG_WRITE_READ,
                        buf0 := [u8 k.MMA8653FC_REGADDR_SYSMOD], buf1 := [0] }]) := by
  have hx : configure_xyz_data k bus dataRate range powerMod
      = (-1, (read_registry k bus k.MMA8653FC_REGADDR_SYSMOD).2) := by
    simp only [configure_xyz_data]
    rw [if_pos h]
  have hi : configure_interrupt k bus polarity pinmode interrupt int_select
      = (-1, (read_registry k bus k.MMA8653FC_REGADDR_SYSMOD).2) := by
    simp only [configure_interrupt]
    rw [if_pos h]
  rw [hx, hi]
  exact ⟨⟨rfl, read_registry_regs k bus _, read_registry_log k bus _⟩,
    ⟨rfl, read_registry_regs k bus _, read_registry_log k bus _⟩⟩

/-- Witness of C9 on the data-sheet register map with `SYSMOD = 0x01` (active). -/
theorem configure_not_in_standby_witness :
    (read_registry datasheet activeBus datasheet.MMA8653FC_REGADDR_SYSMOD).1
        ≠ datasheet.MMA8653FC_SYSMOD_MOD_STANDBY ∧
      (configure_xyz_data datasheet activeBus 1 1 3).1 = -1 ∧
      (configure_xyz_data datasheet activeBus 1 1 3).2.regs = activeBus.regs ∧
      (configure_interrupt datasheet activeBus 1 1 1 1).1 = -1 ∧
      (configure_interrupt datasheet activeBus 1 1 1 1).2.regs = activeBus.regs :=
  have h := configure_not_in_standby datasheet activeBus 1 1 3 1 1 1 1 (by decide)
  ⟨by decide, h.1.1, h.1.2.1, h.2.1, h.2.2.1⟩

theorem testBit_eq_false_of_lt_256 {m i : Nat} (hm : m < 256) (hi : ¬ i < 8) :
    m.testBit i = false := by
  apply Nat.testBit_lt_two_pow
  calc m < 2 ^ 8 := hm
    _ ≤ 2 ^ i := Nat.pow_le_pow_right (by decide) (by omega)

/-- The read-modify-write of a field: with a byte `old`, a mask inside a byte and a shifted
value `v` that has no bit outside the mask, the new register content holds `v` in the field
and keeps every bit of `old` outside it. -/
theorem masked_update (old m v : Nat) (hold : old < 256) (hm : m < 256) (hv : v &&& m = v) :
    u8 ((old &&& cnot m) ||| v) &&& m = v ∧
      u8 ((old &&& cnot m) ||| v) &&& cnot m = old &&& cnot m := by
  have hvi : ∀ i, (v.testBit i && m.testBit i) = v.testBit i := by
    intro i
    rw [← Nat.testBit_and, hv]
  constructor
  · apply Nat.eq_of_testBit_eq
    intro i
    have h1 := hvi i
    simp only [Nat.testBit_and, Nat.testBit_or, testBit_u8, testBit_cnot]
    by_cases hi : i < 8
    · have hi32 : i < 32 := by omega
      simp only [hi, hi32, decide_True, Bool.true_and]
      revert h1
      cases old.testBit i <;> cases m.testBit i <;> cases v.testBit i <;> simp
    · have hmi := testBit_eq_false_of_lt_256 hm hi
      rw [hmi] at h1 ⊢
      simp at h1
      simp [h1]
  · apply Nat.eq_of_testBit_eq
    intro i
    have h1 := hvi i
    simp only [Nat.testBit_and, Nat.testBit_or, testBit_u8, testBit_cnot]
    by_cases hi : i < 8
    · have hi32 : i < 32 := by omega
      simp only [hi, hi32, decide_True, Bool.true_and]
      revert h1
      cases old.testBit i <;> cases m.testBit i <;> cases v.testBit i <;> simp
    · have hoi := testBit_eq_false_of_lt_256 hold hi
      simp [hi, hoi]

/-- A write-write transaction in the two-segment form, the address byte in the first segment
and the value byte in the second, stores the value in the addressed register and changes no
other register. -/
theorem i2c_transaction_two_segment_write (bus : Bus) (dev a v : Nat) :
    (i2c_transaction bus
        { addr := dev, flags := I2C_FLAG_WRITE_WRITE, buf0 := [a], buf1 := [v] }).2.regs
      = fun x => if x = a then u8 v else bus.regs x := by
  simp [i2c_transaction, transmittedBytes, storeBytes, I2C_FLAG_WRITE_WRITE,
    I2C_FLAG_WRITE_READ]

theorem write_registry_regs_next (k : RegDefs) (bus : Bus) (a v : Nat) :
    (write_registry k bus a v).regs
      = fun x => if x = nextReg (u8 a) then 0 else if x = u8 a then u8 v else bus.regs x :=
  write_registry_regs k bus a v

theorem ne_nextReg (a : Nat) : a ≠ nextReg a := by
  unfold nextReg u8; omega

theorem convert_to_count_bounds (r : Nat) :
    -512 ≤ convert_to_count r ∧ convert_to_count r ≤ 511 := by
  have h : convert_to_count r = convert_to_count (u16 r) := by
    have hu : u16 (u16 r) = u16 r := by unfold u16; omega
    simp only [convert_to_count, hu]
  have hlt : u16 r < 65536 := by unfold u16; omega
  have hf : u16 r >>> 6 < 1024 := by
    rw [Nat.shiftRight_eq_div_pow]; omega
  rw [h, convert_to_count_eq_signExtend10 _ hlt]
  unfold signExtend10
  constructor <;> split <;> omega

/-- In exact arithmetic the value returned by `convert_to_g` is the count, an integer in
`[-512, 511]`, divided by a power of two no larger than `2^21`. -/
theorem convert_to_g_dyadic (k : RegDefs) (bus : Bus) (r s : Nat) :
    ∃ e : Nat, e ≤ 21 ∧ (convert_to_g ℚ k bus r s).1 = (convert_to_count r : ℚ) / 2 ^ e := by
  rw [convert_to_g_fst ℚ k bus r s _ rfl]
  simp only [Int.cast_ofNat]
  split_ifs
  · exact ⟨21, by decide, by ring⟩
  · exact ⟨13, by decide, by ring⟩
  · exact ⟨14, by decide, by ring⟩
  · exact ⟨6, by decide, by ring⟩
  · exact ⟨15, by decide, by ring⟩
  · exact ⟨7, by decide, by ring⟩
  · exact ⟨8, by decide, by ring⟩
  · exact ⟨0, by decide, by ring⟩

/-! ## Theorems: interrupt configuration -/

theorem write_registry_log (k : RegDefs) (bus : Bus) (a v : Nat) :
    (write_registry k bus a v).log
      = bus.log ++ [{ addr := u16 k.MMA8653FC_SLAVE_ADDRESS_WRITE, flags := I2C_FLAG_WRITE_WRITE,
                      buf0 := [u8 a, u8 v], buf1 := [0] }] := by
  simp [write_registry, i2c_transaction, transmittedBytes, I2C_FLAG_WRITE_WRITE,
    I2C_FLAG_WRITE_READ]

/-- For every register file of bytes, on a register map whose `CTRL_REG1` address and mode
mask lie inside a byte, whose standby code is 0 and whose shifted active code lies inside the
mode mask, `set_sensor_standby` writes `CTRL_REG1` with its mode field cleared and
`set_sensor_active` writes it with the mode field holding the active code; in both cases all
other bits of `CTRL_REG1` keep the value that was read, every register other than
`CTRL_REG1` and the one at the following address is unchanged, and the only transactions are
the read of `CTRL_REG1` and one write addressed to it. -/
theorem set_sensor_mode_field (k : RegDefs) (bus : Bus)
    (hbytes : ∀ a, bus.regs a < 256)
    (haddr : k.MMA8653FC_REGADDR_CTRL_REG1 < 256)
    (hmask : k.MMA8653FC_CTRL_REG1_SAMODE_MASK < 256)
    (hstandby : k.MMA8653FC_CTRL_REG1_SAMODE_STANDBY = 0)
    (hactive : (k.MMA8653FC_CTRL_REG1_SAMODE_ACTIVE <<< k.MMA8653FC_CTRL_REG1_SAMODE_SHIFT)
        &&& k.MMA8653FC_CTRL_REG1_SAMODE_MASK
      = k.MMA8653FC_CTRL_REG1_SAMODE_ACTIVE <<< k.MMA8653FC_CTRL_REG1_SAMODE_SHIFT) :
    ((set_sensor_standby k bus).regs k.MMA8653FC_REGADDR_CTRL_REG1
          &&& k.MMA8653FC_CTRL_REG1_SAMODE_MASK = 0 ∧
      (set_sensor_standby k bus).regs k.MMA8653FC_REGADDR_CTRL_REG1
          &&& cnot k.MMA8653FC_CTRL_REG1_SAMODE_MASK
        = bus.regs k.MMA8653FC_REGADDR_CTRL_REG1 &&& cnot k.MMA8653FC_CTRL_REG1_SAMODE_MASK ∧
      (∀ a, a ≠ k.MMA8653FC_REGADDR_CTRL_REG1 → a ≠ nextReg k.MMA8653FC_REGADDR_CTRL_REG1 →
        (set_sensor_standby k bus).regs a = bus.regs a) ∧
      (set_sensor_standby k bus).log = bus.log ++
        [{ addr := u16 k.MMA8653FC_SLAVE_ADDRESS_READ, flags := I2C_FLAG_WRITE_READ,
           buf0 := [k.MMA8653FC_REGADDR_CTRL_REG1], buf1 := [0] },
         { addr := u16 k.MMA8653FC_SLAVE_ADDRESS_WRITE, flags := I2C_FLAG_WRITE_WRITE,
           buf0 := [k.MMA8653FC_REGADDR_CTRL_REG1,
             (set_sensor_standby k bus).regs k.MMA8653FC_REGADDR_CTRL_REG1],
           buf1 := [0] }]) ∧
    ((set_sensor_active k bus).regs k.MMA8653FC_REGADDR_CTRL_REG1
          &&& k.MMA8653FC_CTRL_REG1_SAMODE_MASK
        = k.MMA8653FC_CTRL_REG1_SAMODE_ACTIVE <<< k.MMA8653FC_CTRL_REG1_SAMODE_SHIFT ∧
      (set_sensor_active k bus).regs k.MMA8653FC_REGADDR_CTRL_REG1
          &&& cnot k.MMA8653FC_CTRL_REG1_SAMODE_MASK
        = bus.regs k.MMA8653FC_REGADDR_CTRL_REG1 &&& cnot k.MMA8653FC_CTRL_REG1_SAMODE_MASK ∧
      (∀ a, a ≠ k.MMA8653FC_REGADDR_CTRL_REG1 → a ≠ nextReg k.MMA8653FC_REGADDR_CTRL_REG1 →
        (set_sensor_active k bus).regs a = bus.regs a) ∧
      (set_sensor_active k bus).log = bus.log ++
        [{ addr := u16 k.MMA8653FC_SLAVE_ADDRESS_READ, flags := I2C_FLAG_WRITE_READ,
           buf0 := [k.MMA8653FC_REGADDR_CTRL_REG1], buf1 := [0] },
         { addr := u16 k.MMA8653FC_SLAVE_ADDRESS_WRITE, flags := I2C_FLAG_WRITE_WRITE,
           buf0 := [k.MMA8653FC_REGADDR_CTRL_REG1,
             (set_sensor_active k bus).regs k.MMA8653FC_REGADDR_CTRL_REG1],
           buf1 := [0] }]) := by
  have hu := u8_of_lt haddr
  have hn := ne_nextReg k.MMA8653FC_REGADDR_CTRL_REG1
  have hb := u8_of_lt (hbytes k.MMA8653FC_REGADDR_CTRL_REG1)
  have h0 : (0 <<< k.MMA8653FC_CTRL_REG1_SAMODE_SHIFT) &&& k.MMA8653FC_CTRL_REG1_SAMODE_MASK
      = 0 <<< k.MMA8653FC_CTRL_REG1_SAMODE_SHIFT := by simp
  have es := masked_update _ _ _ (hbytes k.MMA8653FC_REGADDR_CTRL_REG1) hmask h0
  have ea := masked_update _ _ _ (hbytes k.MMA8653FC_REGADDR_CTRL_REG1) hmask hactive
  simp only [Nat.zero_shiftLeft] at es
  constructor
  · simp only [set_sensor_standby, hstandby, write_registry_regs_next, write_registry_log,
      read_registry_fst, read_registry_regs, read_registry_log, hu, hb, u8_u8, if_true,
      if_neg hn, Nat.zero_shiftLeft]
    refine ⟨es.1, es.2, ?_, ?_⟩
    · intro a ha hna
      simp [ha, hna]
    · simp
  · simp only [set_sensor_active, write_registry_regs_next, write_registry_log,
      read_registry_fst, read_registry_regs, read_registry_log, hu, hb, u8_u8, if_true,
      if_neg hn]
    refine ⟨ea.1, ea.2, ?_, ?_⟩
    · intro a ha hna
      simp [ha, hna]
    · simp

/-- C12, evaluated on the data-sheet register map from `standbyBus`, where
`CTRL_REG1 = 0xC1` and `CTRL_REG2 = 0x84`: `set_sensor_standby` leaves `CTRL_REG1 = 0xC0`
and `set_sensor_active` leaves `CTRL_REG1 = 0xC1`, the mode field replaced and the other
bits kept, but the one write transaction of either sends the three bytes address, value,
zero, and `CTRL_REG2`, the register at the following address, holds `0x00` afterwards: a
second register is written. For every register map and register file the register at the
address following `CTRL_REG1` holds zero after either call. -/
theorem set_sensor_mode_writes_next_register :
    standbyBus.regs 0x2A = 0xC1 ∧ standbyBus.regs 0x2B = 0x84 ∧
      ((set_sensor_standby datasheet standbyBus).regs 0x2A = 0xC0 ∧
        (set_sensor_standby datasheet standbyBus).regs 0x2B = 0x00 ∧
        (set_sensor_standby datasheet standbyBus).log.map transmittedBytes
          = [[0x2A], [0x2A, 0xC0, 0x00]]) ∧
      ((set_sensor_active datasheet standbyBus).regs 0x2A = 0xC1 ∧
        (set_sensor_active datasheet standbyBus).regs 0x2B = 0x00 ∧
        (set_sensor_active datasheet standbyBus).log.map transmittedBytes
          = [[0x2A], [0x2A, 0xC1, 0x00]]) ∧
      ∀ (k : RegDefs) (bus : Bus),
        (set_sensor_standby k bus).regs (nextReg (u8 k.MMA8653FC_REGADDR_CTRL_REG1)) = 0 ∧
        (set_sensor_active k bus).regs (nextReg (u8 k.MMA8653FC_REGADDR_CTRL_REG1)) = 0 := by
  refine ⟨by decide, by decide, by decide, by decide, ?_⟩
  intro k bus
  simp [set_sensor_standby, set_sensor_active, write_registry_regs_next]

/-- The descriptor that `write_registry` hands to the bus sends three data bytes: the
address, the value, and the zero byte of its `rx_buf` as second segment. -/
theorem write_registry_transmits (k : RegDefs) (bus : Bus) (a v : Nat) :
    ∃ seq, (write_registry k bus a v).log = bus.log ++ [seq] ∧
      seq.flags = I2C_FLAG_WRITE_WRITE ∧ transmittedBytes seq = [u8 a, u8 v, 0] := by
  refine ⟨_, write_registry_log k bus a v, rfl, ?_⟩
  simp [transmittedBytes]

/-- C13, evaluated on the data-sheet register map at `write_registry(0x2A, 0x01)`: the one
transaction issued is a write-write transfer whose first segment holds the address byte and
the value byte and whose second segment holds one zero byte, so it sends the three data
bytes `0x2A, 0x01, 0x00`, not two. -/
theorem write_registry_sends_three_bytes :
    (write_registry datasheet (singleRegBus 0 0) 0x2A 0x01).log
        = [{ addr := 0x3A, flags := I2C_FLAG_WRITE_WRITE, buf0 := [0x2A, 0x01], buf1 := [0] }] ∧
      (write_registry datasheet (singleRegBus 0 0) 0x2A 0x01).log.map transmittedBytes
        = [[0x2A, 0x01, 0x00]] ∧
      ((write_registry datasheet (singleRegBus 0 0) 0x2A 0x01).log.map
        (fun seq => (transmittedBytes seq).length)) = [3] := by
  decide



/-! ## Theorems: sample readout -/

theorem read_registry_log_readSeq (k : RegDefs) (bus : Bus) (a : Nat) :
    (read_registry k bus a).2.log = bus.log ++ [readSeq k a] :=
  read_registry_log k bus a

theorem take_succ_set (l : List Nat) (i v : Nat) (h : i < l.length) :
    (l.set i v).take (i + 1) = l.take i ++ [v] := by
  rw [List.take_succ, List.set_take, List.set_eq_of_length_le (by simp)]
  simp [List.getElem?_set_self h]

theorem u8_succ_add (tmp j : Nat) : u8 (u8 (tmp + 1) + j) = u8 (tmp + (j + 1)) := by
  unfold u8; omega

/-- The read loop from index `i` with `m` entries left, for a length of at most 255: it
returns after `m` further reads, having filled the entries from `i` on with the bytes read
at `tmp, tmp + 1, ...` (modulo 256), and the register file is unchanged. -/
theorem read_loop_returns (k : RegDefs) (n : Nat) (hn : n ≤ 255) :
    ∀ (m fuel : Nat) (bus : Bus) (tmp : Nat) (rxBuf : List Nat) (i : Nat),
      i + m = n → rxBuf.length = n → m + 1 ≤ fuel →
      ∃ out bus', read_multiple_registries_loop k n fuel bus tmp rxBuf i = some (out, bus') ∧
        out = rxBuf.take i ++ (List.range m).map (fun j => u8 (bus.regs (u8 (tmp + j)))) ∧
        bus'.regs = bus.regs ∧
        bus'.log = bus.log ++ (List.range m).map (fun j => readSeq k (tmp + j)) := by
  intro m
  induction m with
  | zero =>
    intro fuel bus tmp rxBuf i him hlen hfuel
    obtain ⟨f, rfl⟩ : ∃ f, fuel = f + 1 := ⟨fuel - 1, by omega⟩
    have hi : ¬ i < n := by omega
    refine ⟨rxBuf, bus, ?_, ?_, rfl, ?_⟩
    · simp only [read_multiple_registries_loop, if_neg hi]
    · have : i = rxBuf.length := by omega
      simp [this]
    · simp
  | succ m ih =>
    intro fuel bus tmp rxBuf i him hlen hfuel
    obtain ⟨f, rfl⟩ : ∃ f, fuel = f + 1 := ⟨fuel - 1, by omega⟩
    have hi : i < n := by omega
    have hi1 : u8 (i + 1) = i + 1 := u8_of_lt (by omega)
    obtain ⟨out, bus', hrun, hout, hregs, hlog⟩ :=
      ih f (read_registry k bus tmp).2 (u8 (tmp + 1))
        (rxBuf.set i (read_registry k bus tmp).1) (i + 1) (by omega) (by simp [hlen])
        (by omega)
    refine ⟨out, bus', ?_, ?_, ?_, ?_⟩
    · simp only [read_multiple_registries_loop, if_pos hi, hi1]
      exact hrun
    · rw [hout, take_succ_set _ _ _ (by omega), read_registry_fst, read_registry_regs,
        List.range_succ_eq_map, List.map_cons, List.map_map, List.append_assoc]
      simp [u8_succ_add, Function.comp_def]
    · rw [hregs, read_registry_regs]
    · rw [hlog, read_registry_log_readSeq, List.range_succ_eq_map, List.map_cons, List.map_map,
        List.append_assoc]
      simp [readSeq, u8_succ_add, Function.comp_def]

/-- The read loop with a length of 256 or more: the `uint8_t` index stays below the length,
so the loop test never fails and no number of tests ends the loop. -/
theorem read_loop_never_returns (k : RegDefs) (n : Nat) (hn : 256 ≤ n) :
    ∀ (fuel : Nat) (bus : Bus) (tmp : Nat) (rxBuf : List Nat) (i : Nat), i < 256 →
      read_multiple_registries_loop k n fuel bus tmp rxBuf i = none := by
  intro fuel
  induction fuel with
  | zero => intros; rfl
  | succ f ih =>
    intro bus tmp rxBuf i hi
    have hin : i < n := by omega
    simp only [read_multiple_registries_loop, if_pos hin]
    exact ih _ _ _ _ (u8_lt _)

/-- For a count of at most 255, `read_multiple_registries` returns after exactly `n`
single-register reads, with a buffer of length `n` whose `i`-th element is the byte read
from register address `(s + i) mod 256`. -/
theorem read_multiple_registries_returns (k : RegDefs) (fuel : Nat) (bus : Bus) (s : Nat)
    (rxBuf : List Nat) (n : Nat) (hn : n ≤ 255) (hlen : rxBuf.length = n) (hfuel : n + 1 ≤ fuel) :
    ∃ out bus', read_multiple_registries k fuel bus s rxBuf n = some (out, bus') ∧
      out = (List.range n).map (fun i => u8 (bus.regs ((s + i) % 256))) ∧
      bus'.regs = bus.regs ∧
      bus'.log = bus.log ++ (List.range n).map (fun i => readSeq k (s + i)) := by
  have hu : u16 n = n := by unfold u16; omega
  obtain ⟨out, bus', hrun, hout, hregs, hlog⟩ :=
    read_loop_returns k n hn n fuel bus (u8 s) rxBuf 0 (by omega) hlen hfuel
  refine ⟨out, bus', ?_, ?_, hregs, ?_⟩
  · simp only [read_multiple_registries, hu]
    exact hrun
  · rw [hout]
    have h : ∀ j, u8 (u8 s + j) = (s + j) % 256 := by
      intro j; unfold u8; omega
    simp [h]
  · rw [hlog]
    have h : ∀ j, readSeq k (u8 s + j) = readSeq k (s + j) := by
      intro j
      have : u8 (u8 s + j) = u8 (s + j) := by unfold u8; omega
      simp [readSeq, this]
    simp [h]

/-- C14, at the requested count 256: for every register map, start address, buffer and bus
state, and for every bound on the number of loop tests, `read_multiple_registries` has not
returned. The `uint8_t` loop index wraps from 255 to 0 and never reaches the count. -/
theorem read_multiple_registries_256_never_returns (k : RegDefs) (fuel : Nat) (bus : Bus)
    (s : Nat) (rxBuf : List Nat) :
    read_multiple_registries k fuel bus s rxBuf 256 = none := by
  have hu : u16 256 = 256 := by decide
  simp only [read_multiple_registries, hu]
  exact read_loop_never_returns k 256 (by decide) fuel bus _ rxBuf 0 (by decide)

theorem shiftLeft8_or (a b : Nat) (ha : a < 256) (hb : b < 256) :
    u16 (u16 (a <<< 8) ||| (0x0000 ||| b)) = 256 * a + b := by
  have h1 : a <<< 8 = 2 ^ 8 * a := by rw [Nat.shiftLeft_eq, Nat.mul_comm]
  have h2 : u16 (a <<< 8) = 2 ^ 8 * a := by rw [h1]; unfold u16; omega
  have h3 : 2 ^ 8 * a ||| b = 2 ^ 8 * a + b := (Nat.mul_add_lt_is_or (by omega) a).symm
  rw [h2, Nat.zero_or, h3]
  unfold u16; omega

/-- C20: on a register map whose `STATUS` address leaves room for six more registers below
256, with a seven-byte `rx_buf` and at least eight loop tests allowed, `get_xyz_data`
returns; it has read the seven registers at the consecutive addresses `STATUS`, ...,
`STATUS + 6` into bytes `b0`, ..., `b6` and nothing else, and the sample it returns has
`status = b0`, `out_x = 256 * b1 + b2`, `out_y = 256 * b3 + b4`, `out_z = 256 * b5 + b6`, so
that `convert_to_count out_x` is the sign extension of the 10-bit number `4 * b1 + b2 / 64`
formed by `b1` and the top two bits of `b2`. -/
theorem get_xyz_data_layout (k : RegDefs) (fuel : Nat) (bus : Bus) (rx_buf : List Nat)
    (haddr : k.MMA8653FC_REGADDR_STATUS + 6 < 256) (hlen : rx_buf.length = 7)
    (hfuel : 8 ≤ fuel) :
    ∃ data bus', get_xyz_data k fuel bus rx_buf = some (data, bus') ∧
      bus'.regs = bus.regs ∧
      bus'.log = bus.log ++ (List.range 7).map
        (fun i => readSeq k (k.MMA8653FC_REGADDR_STATUS + i)) ∧
      data.status = u8 (bus.regs k.MMA8653FC_REGADDR_STATUS) ∧
      data.out_x = 256 * u8 (bus.regs (k.MMA8653FC_REGADDR_STATUS + 1))
        + u8 (bus.regs (k.MMA8653FC_REGADDR_STATUS + 2)) ∧
      data.out_y = 256 * u8 (bus.regs (k.MMA8653FC_REGADDR_STATUS + 3))
        + u8 (bus.regs (k.MMA8653FC_REGADDR_STATUS + 4)) ∧
      data.out_z = 256 * u8 (bus.regs (k.MMA8653FC_REGADDR_STATUS + 5))
        + u8 (bus.regs (k.MMA8653FC_REGADDR_STATUS + 6)) ∧
      convert_to_count data.out_x
        = signExtend10 (4 * u8 (bus.regs (k.MMA8653FC_REGADDR_STATUS + 1))
            + u8 (bus.regs (k.MMA8653FC_REGADDR_STATUS + 2)) / 64) := by
  obtain ⟨out, bus', hrun, hout, hregs, hlog⟩ :=
    read_multiple_registries_returns k fuel bus k.MMA8653FC_REGADDR_STATUS rx_buf 7
      (by decide) hlen hfuel
  have hm : ∀ j, j ≤ 6 → (k.MMA8653FC_REGADDR_STATUS + j) % 256
      = k.MMA8653FC_REGADDR_STATUS + j := by
    intro j hj; omega
  have hout7 : out = [u8 (bus.regs k.MMA8653FC_REGADDR_STATUS),
      u8 (bus.regs (k.MMA8653FC_REGADDR_STATUS + 1)),
      u8 (bus.regs (k.MMA8653FC_REGADDR_STATUS + 2)),
      u8 (bus.regs (k.MMA8653FC_REGADDR_STATUS + 3)),
      u8 (bus.regs (k.MMA8653FC_REGADDR_STATUS + 4)),
      u8 (bus.regs (k.MMA8653FC_REGADDR_STATUS + 5)),
      u8 (bus.regs (k.MMA8653FC_REGADDR_STATUS + 6))] := by
    rw [hout]
    simp only [List.range, List.range.loop, List.map_cons, List.map_nil]
    rw [hm 0 (by decide), hm 1 (by decide), hm 2 (by decide), hm 3 (by decide),
      hm 4 (by decide), hm 5 (by decide), hm 6 (by decide)]
    rfl
  have hx := shiftLeft8_or _ _ (u8_lt (bus.regs (k.MMA8653FC_REGADDR_STATUS + 1)))
    (u8_lt (bus.regs (k.MMA8653FC_REGADDR_STATUS + 2)))
  have hy := shiftLeft8_or _ _ (u8_lt (bus.regs (k.MMA8653FC_REGADDR_STATUS + 3)))
    (u8_lt (bus.regs (k.MMA8653FC_REGADDR_STATUS + 4)))
  have hz := shiftLeft8_or _ _ (u8_lt (bus.regs (k.MMA8653FC_REGADDR_STATUS + 5)))
    (u8_lt (bus.regs (k.MMA8653FC_REGADDR_STATUS + 6)))
  have hget : get_xyz_data k fuel bus rx_buf = some
      ({ status := u8 (bus.regs k.MMA8653FC_REGADDR_STATUS)
         out_x := 256 * u8 (bus.regs (k.MMA8653FC_REGADDR_STATUS + 1))
           + u8 (bus.regs (k.MMA8653FC_REGADDR_STATUS + 2))
         out_y := 256 * u8 (bus.regs (k.MMA8653FC_REGADDR_STATUS + 3))
           + u8 (bus.regs (k.MMA8653FC_REGADDR_STATUS + 4))
         out_z := 256 * u8 (bus.regs (k.MMA8653FC_REGADDR_STATUS + 5))
           + u8 (bus.regs (k.MMA8653FC_REGADDR_STATUS + 6)) }, bus') := by
    subst hout7
    simp only [get_xyz_data, hrun, List.getD_cons_zero, List.getD_cons_succ, u8_u8, hx, hy, hz]
  have h1 := u8_lt (bus.regs (k.MMA8653FC_REGADDR_STATUS + 1))
  have h2 := u8_lt (bus.regs (k.MMA8653FC_REGADDR_STATUS + 2))
  refine ⟨_, bus', hget, hregs, hlog, rfl, rfl, rfl, rfl, ?_⟩
  show convert_to_count (256 * u8 (bus.regs (k.MMA8653FC_REGADDR_STATUS + 1))
    + u8 (bus.regs (k.MMA8653FC_REGADDR_STATUS + 2))) = _
  rw [convert_to_count_eq_signExtend10 _ (by omega)]
  congr 1
  rw [Nat.shiftRight_eq_div_pow]
  omega

/-- Witness of C20 on the data-sheet register map, from `sampleBus`. -/
theorem get_xyz_data_layout_witness :
    (datasheet.MMA8653FC_REGADDR_STATUS + 6 < 256 ∧ (List.replicate 7 0).length = 7 ∧ 8 ≤ 8) ∧
      get_xyz_data datasheet 8 sampleBus (List.replicate 7 0)
        = some ({ status := 15, out_x := 0x4000, out_y := 0xFFC0, out_z := 0x8000 },
            { regs := sampleBus.regs, log := (List.range 7).map (fun i => readSeq datasheet i) }) ∧
      ∃ data bus', get_xyz_data datasheet 8 sampleBus (List.replicate 7 0) = some (data, bus') ∧
        bus'.regs = sampleBus.regs ∧
        bus'.log = sampleBus.log ++ (List.range 7).map
          (fun i => readSeq datasheet (datasheet.MMA8653FC_REGADDR_STATUS + i)) ∧
        data.status = u8 (sampleBus.regs datasheet.MMA8653FC_REGADDR_STATUS) ∧
        data.out_x = 256 * u8 (sampleBus.regs (datasheet.MMA8653FC_REGADDR_STATUS + 1))
          + u8 (sampleBus.regs (datasheet.MMA8653FC_REGADDR_STATUS + 2)) ∧
        data.out_y = 256 * u8 (sampleBus.regs (datasheet.MMA8653FC_REGADDR_STATUS + 3))
          + u8 (sampleBus.regs (datasheet.MMA8653FC_REGADDR_STATUS + 4)) ∧
        data.out_z = 256 * u8 (sampleBus.regs (datasheet.MMA8653FC_REGADDR_STATUS + 5))
          + u8 (sampleBus.regs (datasheet.MMA8653FC_REGADDR_STATUS + 6)) ∧
        convert_to_count data.out_x
          = signExtend10 (4 * u8 (sampleBus.regs (datasheet.MMA8653FC_REGADDR_STATUS + 1))
              + u8 (sampleBus.regs (datasheet.MMA8653FC_REGADDR_STATUS + 2)) / 64) :=
  ⟨by decide, by simp [get_xyz_data, read_multiple_registries, read_multiple_registries_loop,
      read_registry, i2c_transaction, sampleBus, u8, u16, readSeq, datasheet,
      I2C_FLAG_WRITE_READ, List.range, List.range.loop],
    get_xyz_data_layout datasheet 8 sampleBus (List.replicate 7 0) (by decide) (by decide)
      (by decide)⟩

/-! ## Theorems: the range argument of `convert_to_g` -/

/-- C19: `convert_to_g` takes its range from the `XYZ_DATA_CFG` register, which it reads
at call time with one bus transaction, and not from the caller: for every raw value, every
register state and any two `sensor_scale` arguments the results, value and bus state, are
the same. -/
theorem convert_to_g_ignores_sensor_scale (α : Type) [IntCast α] [Div α] (k : RegDefs)
    (bus : Bus) (r s1 s2 : Nat) :
    convert_to_g α k bus r s1 = convert_to_g α k bus r s2 ∧
      (convert_to_g α k bus r s1).2.log
        = bus.log ++ [readSeq k k.MMA8653FC_REGADDR_XYZ_DATA_CFG] :=
  ⟨rfl, read_registry_log k bus _⟩



/-! ## Theorems: acquisition loop -/

theorem loop_body_not_ready (α : Type) [Zero α] [Add α] [Sub α] [Mul α] [Div α] [NatCast α]
    [IntCast α] (k : RegDefs) (st : LoopState α) (bus : Bus) (d : xyz_rawdata_t)
    (h : d.status ≠ 15) : loop_body α k st bus d = (st, bus, []) := by
  simp only [loop_body, if_neg h]

theorem loop_body_index (α : Type) [Zero α] [Add α] [Sub α] [Mul α] [Div α] [NatCast α]
    [IntCast α] (k : RegDefs) (st : LoopState α) (bus : Bus) (d : xyz_rawdata_t)
    (hj : st.buf_index ≤ 40) :
    (loop_body α k st bus d).1.buf_index =
      if d.status = 15 then (if st.buf_index < 40 then st.buf_index + 1 else 0)
      else st.buf_index := by
  by_cases hs : d.status = 15
  · by_cases hlt : st.buf_index < 40
    · have hu : u16 (st.buf_index + 1) = st.buf_index + 1 := by unfold u16; omega
      simp [loop_body, hs, hlt, ACC_XYZ_DATA_LEN, hu]
    · simp [loop_body, hs, hlt, ACC_XYZ_DATA_LEN]
  · simp [loop_body, hs]

theorem run_nil (α : Type) [Zero α] [Add α] [Sub α] [Mul α] [Div α] [NatCast α]
    [IntCast α] (k : RegDefs) (s : LoopState α × Bus × List (LogEvent α)) :
    run α k s [] = s := rfl

theorem run_cons (α : Type) [Zero α] [Add α] [Sub α] [Mul α] [Div α] [NatCast α]
    [IntCast α] (k : RegDefs) (s : LoopState α × Bus × List (LogEvent α))
    (d : xyz_rawdata_t) (l : List xyz_rawdata_t) :
    run α k s (d :: l)
      = run α k ((loop_body α k s.1 s.2.1 d).1, (loop_body α k s.1 s.2.1 d).2.1,
          s.2.2 ++ (loop_body α k s.1 s.2.1 d).2.2) l := rfl

theorem run_append (α : Type) [Zero α] [Add α] [Sub α] [Mul α] [Div α] [NatCast α]
    [IntCast α] (k : RegDefs) (s : LoopState α × Bus × List (LogEvent α))
    (l1 l2 : List xyz_rawdata_t) :
    run α k s (l1 ++ l2) = run α k (run α k s l1) l2 := by
  simp only [run, List.foldl_append]

theorem countReady_cons (d : xyz_rawdata_t) (l : List xyz_rawdata_t) :
    countReady (d :: l) = (if d.status = 15 then 1 else 0) + countReady l := by
  by_cases h : d.status = 15
  · simp [countReady, List.filter_cons, h]; omega
  · simp [countReady, List.filter_cons, h]

theorem run_index (α : Type) [Zero α] [Add α] [Sub α] [Mul α] [Div α] [NatCast α]
    [IntCast α] (k : RegDefs) (samples : List xyz_rawdata_t) :
    ∀ (s : LoopState α × Bus × List (LogEvent α)), s.1.buf_index ≤ 40 →
      (run α k s samples).1.buf_index = (s.1.buf_index + countReady samples) % 41 := by
  induction samples with
  | nil =>
    intro s hs
    simp only [run_nil, countReady, List.filter_nil, List.length_nil, Nat.add_zero]
    omega
  | cons d l ih =>
    intro s hs
    have hstep := loop_body_index α k s.1 s.2.1 d hs
    rw [run_cons, ih _ (by rw [hstep]; split_ifs <;> omega), countReady_cons]
    simp only [hstep]
    split_ifs <;> omega

/-- C15: the window index invariant of the acquisition loop. Starting from `buf_index = 0`,
after any finite sequence of loop iterations with arbitrary fetched samples the index is the
number of status-ready samples modulo 41, so `0 <= buf_index <= ACC_XYZ_DATA_LEN`; an
iteration leaves the index alone on a sample that is not ready, moves it from `j < 40` to
`j + 1` on a ready sample, which it buffers, and moves it from 40 to 0 on a ready sample:
40 is reached only by 40 buffered samples since the last reset, and the only transition out
of 40 is the reset. -/
theorem buf_index_invariant (α : Type) [Zero α] [Add α] [Sub α] [Mul α] [Div α] [NatCast α]
    [IntCast α] (k : RegDefs) (st : LoopState α) (bus : Bus)
    (ev : List (LogEvent α)) (samples : List xyz_rawdata_t) (h0 : st.buf_index = 0) :
    ((run α k (st, bus, ev) samples).1.buf_index = countReady samples % 41 ∧
      (run α k (st, bus, ev) samples).1.buf_index ≤ ACC_XYZ_DATA_LEN) ∧
    ∀ (st' : LoopState α) (bus' : Bus) (d : xyz_rawdata_t), st'.buf_index ≤ ACC_XYZ_DATA_LEN →
      (loop_body α k st' bus' d).1.buf_index =
        if d.status = 15 then
          (if st'.buf_index < ACC_XYZ_DATA_LEN then st'.buf_index + 1 else 0)
        else st'.buf_index := by
  have h := run_index α k samples (st, bus, ev) (by simp [h0])
  simp only [h0, Nat.zero_add] at h
  refine ⟨⟨h, ?_⟩, ?_⟩
  · rw [h]; unfold ACC_XYZ_DATA_LEN; omega
  · intro st' bus' d hj
    exact loop_body_index α k st' bus' d hj

/-- C18: for every loop state and every fetched sample whose status byte is not 15, one loop
iteration leaves the three window buffers and `buf_index` unchanged, issues no bus
transaction after the fetch and emits nothing, in particular no energy result. -/
theorem loop_body_discards_not_ready (α : Type) [Zero α] [Add α] [Sub α] [Mul α] [Div α] [NatCast α]
    [IntCast α] (k : RegDefs) (st : LoopState α) (bus : Bus)
    (d : xyz_rawdata_t) (h : d.status ≠ 15) :
    (loop_body α k st bus d).1 = st ∧ (loop_body α k st bus d).2.1 = bus ∧
      (loop_body α k st bus d).2.2 = [] := by
  rw [loop_body_not_ready α k st bus d h]
  exact ⟨rfl, rfl, rfl⟩

/-- Witness of C15 on the data-sheet register map: 42 ready samples and one that is not
ready, from the initial state; the index ends at `42 mod 41 = 1`. -/
theorem buf_index_invariant_witness :
    (LoopState.init F32).buf_index = 0 ∧
      (run F32 datasheet (LoopState.init F32, singleRegBus 0 0, [])
        (List.replicate 42 readySample ++ [staleSample])).1.buf_index
        = countReady (List.replicate 42 readySample ++ [staleSample]) % 41 ∧
      countReady (List.replicate 42 readySample ++ [staleSample]) % 41 = 1 :=
  ⟨rfl, (buf_index_invariant F32 datasheet (LoopState.init F32) (singleRegBus 0 0) []
      (List.replicate 42 readySample ++ [staleSample]) rfl).1.1, by decide⟩

/-- Witness of C18: a sample with status byte 7 on the initial state. -/
theorem loop_body_discards_not_ready_witness :
    staleSample.status ≠ 15 ∧
      (loop_body F32 datasheet (LoopState.init F32) (singleRegBus 0 0) staleSample).1
        = LoopState.init F32 ∧
      (loop_body F32 datasheet (LoopState.init F32) (singleRegBus 0 0) staleSample).2.2 = [] :=
  have h := loop_body_discards_not_ready F32 datasheet (LoopState.init F32)
    (singleRegBus 0 0) staleSample (by decide)
  ⟨by decide, h.1, h.2.2⟩



/-! ## Theorems: filling and draining the window -/

theorem convert_to_g_regs (α : Type) [IntCast α] [Div α] (k : RegDefs) (bus : Bus)
    (r s : Nat) : (convert_to_g α k bus r s).2.regs = bus.regs :=
  read_registry_regs k bus _

theorem decode_congr (α : Type) [IntCast α] [Div α] (k : RegDefs) (bus1 bus2 : Bus)
    (h : bus1.regs = bus2.regs) (raw : Nat) : decode α k bus1 raw = decode α k bus2 raw := by
  simp only [decode, convert_to_g, read_registry_fst, h]

theorem set_take_drop {β : Type} (L : List β) (j : Nat) (v : β) (vs : List β)
    (hj : j < L.length) :
    (L.set j v).take (j + 1) ++ vs ++ (L.set j v).drop (j + 1 + vs.length)
      = L.take j ++ (v :: vs) ++ L.drop (j + (vs.length + 1)) := by
  have h1 : (L.set j v).take (j + 1) = L.take j ++ [v] := by
    rw [List.take_succ, List.set_take, List.set_eq_of_length_le (by simp)]
    simp [List.getElem?_set_self hj]
  have h2 : (L.set j v).drop (j + 1 + vs.length) = L.drop (j + 1 + vs.length) :=
    List.drop_set_of_lt v L (by omega)
  rw [h1, h2]
  have h3 : j + 1 + vs.length = j + (vs.length + 1) := by omega
  rw [h3]
  simp

/-- One iteration on a ready sample while the window is not full: the decoded values go
into the three buffers at `buf_index`, the index moves on by one, the register file is
unchanged and no energy is emitted. -/
theorem loop_body_push (α : Type) [Zero α] [Add α] [Sub α] [Mul α] [Div α] [NatCast α]
    [IntCast α] (k : RegDefs) (st : LoopState α) (bus : Bus) (d : xyz_rawdata_t)
    (hs : d.status = 15) (hj : st.buf_index < 40) :
    (loop_body α k st bus d).1.buf1_x = st.buf1_x.set st.buf_index (decode α k bus d.out_x) ∧
      (loop_body α k st bus d).1.buf1_y = st.buf1_y.set st.buf_index (decode α k bus d.out_y) ∧
      (loop_body α k st bus d).1.buf1_z = st.buf1_z.set st.buf_index (decode α k bus d.out_z) ∧
      (loop_body α k st bus d).1.buf_index = st.buf_index + 1 ∧
      (loop_body α k st bus d).2.1.regs = bus.regs ∧
      (loop_body α k st bus d).2.2.filter LogEvent.isEnergy = [] := by
  have hu : u16 (st.buf_index + 1) = st.buf_index + 1 := by unfold u16; omega
  have hlt : st.buf_index < ACC_XYZ_DATA_LEN := hj
  have hy : decode α k (convert_to_g α k bus d.out_x (SENSOR_DATA_RANGE k)).2 d.out_y
      = decode α k bus d.out_y :=
    decode_congr α k _ _ (convert_to_g_regs α k bus _ _) _
  have hz : decode α k (convert_to_g α k (convert_to_g α k bus d.out_x
      (SENSOR_DATA_RANGE k)).2 d.out_y (SENSOR_DATA_RANGE k)).2 d.out_z
      = decode α k bus d.out_z :=
    decode_congr α k _ _ (by rw [convert_to_g_regs, convert_to_g_regs]) _
  refine ⟨?_, ?_, ?_, ?_, ?_, ?_⟩
  · simp only [loop_body, if_pos hs, if_pos hlt, decode]
  · simp only [loop_body, if_pos hs, if_pos hlt]
    exact congrArg _ hy
  · simp only [loop_body, if_pos hs, if_pos hlt]
    exact congrArg _ hz
  · simp only [loop_body, if_pos hs, if_pos hlt, hu]
  · simp only [loop_body, if_pos hs, if_pos hlt]
    rw [convert_to_g_regs, convert_to_g_regs, convert_to_g_regs]
  · simp [loop_body, if_pos hs, if_pos hlt, LogEvent.isEnergy]

/-- One iteration on a ready sample while the window is full: the energies of the three
buffers over `buf_index` elements are emitted, the index is reset to 0, the buffers are
unchanged (the sample is not stored) and no bus transaction is issued. -/
theorem loop_body_full (α : Type) [Zero α] [Add α] [Sub α] [Mul α] [Div α] [NatCast α]
    [IntCast α] (k : RegDefs) (st : LoopState α) (bus : Bus) (d : xyz_rawdata_t)
    (hs : d.status = 15) (hj : ¬ st.buf_index < 40) :
    loop_body α k st bus d
      = ({ st with buf_index := 0 }, bus,
          [LogEvent.energy (calc_signal_energy α st.buf1_x st.buf_index)
            (calc_signal_energy α st.buf1_y st.buf_index)
            (calc_signal_energy α st.buf1_z st.buf_index)]) := by
  have hlt : ¬ st.buf_index < ACC_XYZ_DATA_LEN := hj
  simp only [loop_body, if_pos hs, if_neg hlt]

/-- A run of ready samples that fit in the window: they are decoded and stored in arrival
order in the entries from the start index on, one entry each; every other entry keeps its
value, the index moves on by their number, and no energy is emitted. -/
theorem run_push (α : Type) [Zero α] [Add α] [Sub α] [Mul α] [Div α] [NatCast α]
    [IntCast α] (k : RegDefs) (l : List xyz_rawdata_t) :
    ∀ (s : LoopState α × Bus × List (LogEvent α)), (∀ d ∈ l, d.status = 15) →
      s.1.buf_index + l.length ≤ 40 →
      s.1.buf1_x.length = 40 → s.1.buf1_y.length = 40 → s.1.buf1_z.length = 40 →
      (run α k s l).1.buf_index = s.1.buf_index + l.length ∧
      (run α k s l).1.buf1_x = s.1.buf1_x.take s.1.buf_index
        ++ l.map (fun d => decode α k s.2.1 d.out_x)
        ++ s.1.buf1_x.drop (s.1.buf_index + l.length) ∧
      (run α k s l).1.buf1_y = s.1.buf1_y.take s.1.buf_index
        ++ l.map (fun d => decode α k s.2.1 d.out_y)
        ++ s.1.buf1_y.drop (s.1.buf_index + l.length) ∧
      (run α k s l).1.buf1_z = s.1.buf1_z.take s.1.buf_index
        ++ l.map (fun d => decode α k s.2.1 d.out_z)
        ++ s.1.buf1_z.drop (s.1.buf_index + l.length) ∧
      (run α k s l).2.1.regs = s.2.1.regs ∧
      (run α k s l).2.2.filter LogEvent.isEnergy = s.2.2.filter LogEvent.isEnergy := by
  induction l with
  | nil =>
    intro s _ _ _ _ _
    simp [run_nil]
  | cons d l ih =>
    intro s hready hfit hx hy hz
    have hd : d.status = 15 := hready d (List.mem_cons_self _ _)
    have hl : ∀ e ∈ l, e.status = 15 := fun e he => hready e (List.mem_cons_of_mem _ he)
    have hlen : (d :: l).length = l.length + 1 := rfl
    have hj : s.1.buf_index < 40 := by omega
    obtain ⟨px, py, pz, pi, pr, pe⟩ := loop_body_push α k s.1 s.2.1 d hd hj
    have hdec : ∀ raw, decode α k (loop_body α k s.1 s.2.1 d).2.1 raw = decode α k s.2.1 raw :=
      fun raw => decode_congr α k _ _ pr raw
    obtain ⟨qi, qx, qy, qz, qr, qe⟩ :=
      ih ((loop_body α k s.1 s.2.1 d).1, (loop_body α k s.1 s.2.1 d).2.1,
          s.2.2 ++ (loop_body α k s.1 s.2.1 d).2.2) hl
        (by simp only [pi]; omega) (by simp only [px, List.length_set, hx])
        (by simp only [py, List.length_set, hy]) (by simp only [pz, List.length_set, hz])
    rw [run_cons]
    refine ⟨?_, ?_, ?_, ?_, ?_, ?_⟩
    · rw [qi]; simp only [pi, hlen]; omega
    · rw [qx]; simp only [px, pi, hdec, hlen]
      have := set_take_drop s.1.buf1_x s.1.buf_index (decode α k s.2.1 d.out_x)
        (l.map (fun d => decode α k s.2.1 d.out_x)) (by omega)
      simpa using this
    · rw [qy]; simp only [py, pi, hdec, hlen]
      have := set_take_drop s.1.buf1_y s.1.buf_index (decode α k s.2.1 d.out_y)
        (l.map (fun d => decode α k s.2.1 d.out_y)) (by omega)
      simpa using this
    · rw [qz]; simp only [pz, pi, hdec, hlen]
      have := set_take_drop s.1.buf1_z s.1.buf_index (decode α k s.2.1 d.out_z)
        (l.map (fun d => decode α k s.2.1 d.out_z)) (by omega)
      simpa using this
    · rw [qr, pr]
    · rw [qe]; simp only [List.filter_append, pe, List.append_nil]



theorem loopState_eq {α : Type} (a b : LoopState α) (hx : a.buf1_x = b.buf1_x)
    (hy : a.buf1_y = b.buf1_y) (hz : a.buf1_z = b.buf1_z) (hi : a.buf_index = b.buf_index) :
    a = b := by
  cases a; cases b; simp_all

/-- A run of ready samples from an empty index: the window is `storeWindow`. -/
theorem run_store (α : Type) [Zero α] [Add α] [Sub α] [Mul α] [Div α] [NatCast α]
    [IntCast α] (k : RegDefs) (st : LoopState α) (bus : Bus) (ev : List (LogEvent α))
    (l : List xyz_rawdata_t) (h0 : st.buf_index = 0) (hx : st.buf1_x.length = 40)
    (hy : st.buf1_y.length = 40) (hz : st.buf1_z.length = 40)
    (hl : ∀ d ∈ l, d.status = 15) (hlen : l.length ≤ 40) :
    (run α k (st, bus, ev) l).1 = storeWindow α k bus st l ∧
      (run α k (st, bus, ev) l).2.1.regs = bus.regs ∧
      (run α k (st, bus, ev) l).2.2.filter LogEvent.isEnergy
        = ev.filter LogEvent.isEnergy := by
  obtain ⟨qi, qx, qy, qz, qr, qe⟩ := run_push α k l (st, bus, ev) hl
    (by simp only [h0]; omega) hx hy hz
  refine ⟨?_, qr, qe⟩
  apply loopState_eq
  · rw [qx]; simp [storeWindow, h0]
  · rw [qy]; simp [storeWindow, h0]
  · rw [qz]; simp [storeWindow, h0]
  · rw [qi]; simp [storeWindow, h0]

theorem storeWindow_lengths (α : Type) [IntCast α] [Div α] (k : RegDefs) (bus : Bus)
    (old : LoopState α) (l : List xyz_rawdata_t) (hlen : l.length ≤ 40)
    (hx : old.buf1_x.length = 40) (hy : old.buf1_y.length = 40)
    (hz : old.buf1_z.length = 40) :
    (storeWindow α k bus old l).buf1_x.length = 40 ∧
      (storeWindow α k bus old l).buf1_y.length = 40 ∧
      (storeWindow α k bus old l).buf1_z.length = 40 := by
  simp only [storeWindow, List.length_append, List.length_map, List.length_drop]
  omega

/-- A full window, then one more ready sample: the state after the 41 iterations is the
full window with the index back at 0, and the one energy event is the energy of the three
buffers of the full window over 40 elements. -/
theorem run_fill_drain (α : Type) [Zero α] [Add α] [Sub α] [Mul α] [Div α] [NatCast α]
    [IntCast α] (k : RegDefs) (st : LoopState α) (bus : Bus)
    (l : List xyz_rawdata_t) (t : xyz_rawdata_t) (h0 : st.buf_index = 0)
    (hx : st.buf1_x.length = 40) (hy : st.buf1_y.length = 40) (hz : st.buf1_z.length = 40)
    (hl : ∀ d ∈ l, d.status = 15) (hlen : l.length = 40) (ht : t.status = 15) :
    (run α k (st, bus, []) (l ++ [t])).1 = { storeWindow α k bus st l with buf_index := 0 } ∧
      (run α k (st, bus, []) (l ++ [t])).2.1.regs = bus.regs ∧
      (run α k (st, bus, []) (l ++ [t])).2.2.filter LogEvent.isEnergy
        = [LogEvent.energy
            (calc_signal_energy α (storeWindow α k bus st l).buf1_x 40)
            (calc_signal_energy α (storeWindow α k bus st l).buf1_y 40)
            (calc_signal_energy α (storeWindow α k bus st l).buf1_z 40)] := by
  obtain ⟨h1, h2, h3⟩ := run_store α k st bus [] l h0 hx hy hz hl (by omega)
  have hidx : (run α k (st, bus, []) l).1.buf_index = 40 := by
    rw [h1]; simp [storeWindow, hlen]
  have hfull := loop_body_full α k (run α k (st, bus, []) l).1 (run α k (st, bus, []) l).2.1 t ht
    (by omega)
  rw [run_append, run_cons, run_nil, hfull]
  refine ⟨?_, h2, ?_⟩
  · simp only [h1]
  · have hsi : (storeWindow α k bus st l).buf_index = 40 := hlen
    simp only [List.filter_append, h3, h1, hsi]
    simp [LogEvent.isEnergy]

/-- C16, amended: from an empty window, a sequence of status-ready samples `l` fills the
window: after the first `i <= 40` of them the index is `i` and they are stored, decoded, in
arrival order in the entries `0, ..., i - 1`, one entry each, so that exactly 40 pushes
make the window full. The next ready sample `t` triggers the energy computation and the
reset: the index returns to 0, the 40 stored samples are all still in place, and `t` itself
is not stored. After the reset the ready samples `l'` are again accepted, the first `i <= 40`
of them taking the entries `0, ..., i - 1` and leaving the later entries of the previous
cycle in place, so exactly 40 more pushes make the window full again. -/
theorem window_fill_drain (α : Type) [Zero α] [Add α] [Sub α] [Mul α] [Div α] [NatCast α]
    [IntCast α] (k : RegDefs) (st : LoopState α) (bus : Bus)
    (l l' : List xyz_rawdata_t) (t : xyz_rawdata_t) (h0 : st.buf_index = 0)
    (hx : st.buf1_x.length = 40) (hy : st.buf1_y.length = 40) (hz : st.buf1_z.length = 40)
    (hl : ∀ d ∈ l, d.status = 15) (hlen : l.length = 40) (ht : t.status = 15)
    (hl' : ∀ d ∈ l', d.status = 15) (hlen' : l'.length = 40) :
    (∀ i, i ≤ 40 →
        (run α k (st, bus, []) (l.take i)).1 = storeWindow α k bus st (l.take i) ∧
        (run α k (st, bus, []) (l.take i)).1.buf_index = i) ∧
      (run α k (st, bus, []) (l ++ [t])).1
        = { storeWindow α k bus st l with buf_index := 0 } ∧
      (∀ i, i ≤ 40 →
        (run α k (st, bus, []) (l ++ [t] ++ l'.take i)).1
          = storeWindow α k bus { storeWindow α k bus st l with buf_index := 0 } (l'.take i) ∧
        (run α k (st, bus, []) (l ++ [t] ++ l'.take i)).1.buf_index = i) := by
  have htake : ∀ (m : List xyz_rawdata_t) (i : Nat), m.length = 40 → i ≤ 40 →
      (m.take i).length = i := by
    intro m i hm hi
    rw [List.length_take]; omega
  obtain ⟨d1, d2, d3⟩ := run_fill_drain α k st bus l t h0 hx hy hz hl hlen ht
  obtain ⟨sx, sy, sz⟩ := storeWindow_lengths α k bus st l (by omega) hx hy hz
  refine ⟨?_, d1, ?_⟩
  · intro i hi
    obtain ⟨h1, _, _⟩ := run_store α k st bus [] (l.take i) h0 hx hy hz
      (fun d hd => hl d (List.mem_of_mem_take hd)) (by rw [htake l i hlen hi]; exact hi)
    refine ⟨h1, ?_⟩
    rw [h1]
    exact htake l i hlen hi
  · intro i hi
    have hrun : run α k (st, bus, []) (l ++ [t] ++ l'.take i)
        = run α k ((run α k (st, bus, []) (l ++ [t])).1,
            (run α k (st, bus, []) (l ++ [t])).2.1,
            (run α k (st, bus, []) (l ++ [t])).2.2) (l'.take i) := by
      rw [run_append]
    obtain ⟨h1, _, _⟩ := run_store α k (run α k (st, bus, []) (l ++ [t])).1
      (run α k (st, bus, []) (l ++ [t])).2.1 (run α k (st, bus, []) (l ++ [t])).2.2
      (l'.take i) (by rw [d1]) (by rw [d1]; exact sx) (by rw [d1]; exact sy)
      (by rw [d1]; exact sz) (fun d hd => hl' d (List.mem_of_mem_take hd))
      (by rw [htake l' i hlen' hi]; exact hi)
    rw [hrun, h1, d1]
    have hdec : storeWindow α k (run α k (st, bus, []) (l ++ [t])).2.1
        { storeWindow α k bus st l with buf_index := 0 } (l'.take i)
        = storeWindow α k bus { storeWindow α k bus st l with buf_index := 0 } (l'.take i) := by
      simp only [storeWindow, decode_congr α k _ _ d2]
    rw [hdec]
    exact ⟨rfl, htake l' i hlen' hi⟩

theorem replicate_ready (n : Nat) : ∀ d ∈ List.replicate n readySample, d.status = 15 := by
  intro d hd
  rw [List.eq_of_mem_replicate hd]
  rfl

/-- Witness of C16 (amended) on the data-sheet register map: from the initial state, 40
ready samples, one more, and 40 again. -/
theorem window_fill_drain_witness :
    ((LoopState.init F32).buf_index = 0 ∧ (List.replicate 40 readySample).length = 40 ∧
        readySample.status = 15) ∧
      (run F32 datasheet (LoopState.init F32, singleRegBus 0 0, [])
          (List.replicate 40 readySample ++ [readySample])).1
        = { storeWindow F32 datasheet (singleRegBus 0 0) (LoopState.init F32)
              (List.replicate 40 readySample) with buf_index := 0 } :=
  ⟨⟨rfl, by decide, rfl⟩,
    (window_fill_drain F32 datasheet (LoopState.init F32) (singleRegBus 0 0)
      (List.replicate 40 readySample) (List.replicate 40 readySample) readySample rfl
      (by decide) (by decide) (by decide) (replicate_ready 40) (by decide) rfl
      (replicate_ready 40) (by decide)).2.1⟩

set_option maxRecDepth 100000 in
/-- C16, as stated, fails: on the data-sheet register map, from the initial state, the loop
fetches 42 distinct status-ready samples. The 41st (`rampSample 40`) is ready, yet its
decoded value is in no entry of the window, neither right after its own iteration nor after
the next one, in which the 42nd sample takes entry 0: the sample that arrives while the
window is full is lost. -/
theorem window_drops_sample_41 :
    (rampSample 40).status = 15 ∧
      decode F32 datasheet (singleRegBus 0 0) (rampSample 40).out_x
        ∉ (run F32 datasheet (LoopState.init F32, singleRegBus 0 0, [])
            ((List.range 41).map rampSample)).1.buf1_x ∧
      decode F32 datasheet (singleRegBus 0 0) (rampSample 40).out_x
        ∉ (run F32 datasheet (LoopState.init F32, singleRegBus 0 0, [])
            ((List.range 42).map rampSample)).1.buf1_x ∧
      (run F32 datasheet (LoopState.init F32, singleRegBus 0 0, [])
            ((List.range 42).map rampSample)).1.buf1_x[0]?
        = some (decode F32 datasheet (singleRegBus 0 0) (rampSample 41).out_x) := by
  decide

/-! ## Theorems: end to end -/

/-- When `XYZ_DATA_CFG` reads the 2g code, on a register map whose 2g code is 0 and whose 4g
and 8g codes are not, the buffered value of a raw axis value is its count divided by 256. -/
theorem decode_2g (α : Type) [IntCast α] [Div α] (k : RegDefs) (bus : Bus) (raw : Nat)
    (hreg : (read_registry k bus k.MMA8653FC_REGADDR_XYZ_DATA_CFG).1
      = k.MMA8653FC_XYZ_DATA_CFG_2G_RANGE)
    (h2 : k.MMA8653FC_XYZ_DATA_CFG_2G_RANGE = 0) (h4 : k.MMA8653FC_XYZ_DATA_CFG_4G_RANGE ≠ 0)
    (h8 : k.MMA8653FC_XYZ_DATA_CFG_8G_RANGE ≠ 0) :
    decode α k bus raw = ((convert_to_count raw : Int) : α) / ((256 : Int) : α) := by
  rw [read_registry_fst, h2] at hreg
  have hc : (0 : Nat) = u8 (u8 (bus.regs (u8 k.MMA8653FC_REGADDR_XYZ_DATA_CFG))
      &&& cnot k.MMA8653FC_XYZ_DATA_CFG_RANGE_MASK) := by
    rw [hreg]; simp [u8]
  unfold decode
  rw [convert_to_g_fst α k bus raw _ 0 hc, if_neg (Ne.symm h8), if_neg (Ne.symm h4),
    if_pos h2.symm]

/-- C17: end to end. From an empty window, with `XYZ_DATA_CFG` reading the 2g code (on a
register map whose 2g code is 0 and whose 4g and 8g codes are not), after the loop fetches
40 status-ready raw samples and then one further status-ready sample, exactly one energy
result has been emitted, and its value for each axis is `calc_signal_energy` over exactly
the 40 values `convert_to_count(raw_i) / 256` of that axis in arrival order and over 40
elements; the index was `i` after the first `i` samples and is 0 at the end, so it was reset
exactly once, with the one emission. -/
theorem end_to_end_energy (α : Type) [Zero α] [Add α] [Sub α] [Mul α] [Div α] [NatCast α]
    [IntCast α] (k : RegDefs) (st : LoopState α) (bus : Bus)
    (l : List xyz_rawdata_t) (t : xyz_rawdata_t) (h0 : st.buf_index = 0)
    (hx : st.buf1_x.length = 40) (hy : st.buf1_y.length = 40) (hz : st.buf1_z.length = 40)
    (hl : ∀ d ∈ l, d.status = 15) (hlen : l.length = 40) (ht : t.status = 15)
    (hreg : (read_registry k bus k.MMA8653FC_REGADDR_XYZ_DATA_CFG).1
      = k.MMA8653FC_XYZ_DATA_CFG_2G_RANGE)
    (h2 : k.MMA8653FC_XYZ_DATA_CFG_2G_RANGE = 0) (h4 : k.MMA8653FC_XYZ_DATA_CFG_4G_RANGE ≠ 0)
    (h8 : k.MMA8653FC_XYZ_DATA_CFG_8G_RANGE ≠ 0) :
    (run α k (st, bus, []) (l ++ [t])).2.2.filter LogEvent.isEnergy
        = [LogEvent.energy
            (calc_signal_energy α
              (l.map (fun d => ((convert_to_count d.out_x : Int) : α) / ((256 : Int) : α))) 40)
            (calc_signal_energy α
              (l.map (fun d => ((convert_to_count d.out_y : Int) : α) / ((256 : Int) : α))) 40)
            (calc_signal_energy α
              (l.map (fun d => ((convert_to_count d.out_z : Int) : α) / ((256 : Int) : α))) 40)] ∧
      (∀ i, i ≤ 40 → (run α k (st, bus, []) (l.take i)).1.buf_index = i) ∧
      (run α k (st, bus, []) (l ++ [t])).1.buf_index = 0 := by
  obtain ⟨d1, _, d3⟩ := run_fill_drain α k st bus l t h0 hx hy hz hl hlen ht
  have hdec : ∀ raw, decode α k bus raw
      = ((convert_to_count raw : Int) : α) / ((256 : Int) : α) :=
    fun raw => decode_2g α k bus raw hreg h2 h4 h8
  have hdx : st.buf1_x.drop l.length = [] := List.drop_eq_nil_of_le (by omega)
  have hdy : st.buf1_y.drop l.length = [] := List.drop_eq_nil_of_le (by omega)
  have hdz : st.buf1_z.drop l.length = [] := List.drop_eq_nil_of_le (by omega)
  refine ⟨?_, ?_, ?_⟩
  · rw [d3]
    simp only [storeWindow, hdec, hdx, hdy, hdz, List.append_nil]
  · intro i hi
    obtain ⟨h1, _, _⟩ := run_store α k st bus [] (l.take i) h0 hx hy hz
      (fun d hd => hl d (List.mem_of_mem_take hd)) (by rw [List.length_take]; omega)
    rw [h1]
    simp only [storeWindow, List.length_take]
    omega
  · rw [d1]

/-- Witness of C17 on the data-sheet register map: from the initial state with
`XYZ_DATA_CFG = 0x00`, 40 ready samples and one more; in `float` arithmetic. -/
theorem end_to_end_energy_witness :
    ((LoopState.init F32).buf_index = 0 ∧ (List.replicate 40 readySample).length = 40 ∧
        readySample.status = 15 ∧
        (read_registry datasheet (singleRegBus 0 0) datasheet.MMA8653FC_REGADDR_XYZ_DATA_CFG).1
          = datasheet.MMA8653FC_XYZ_DATA_CFG_2G_RANGE) ∧
      (run F32 datasheet (LoopState.init F32, singleRegBus 0 0, [])
          (List.replicate 40 readySample ++ [readySample])).2.2.filter LogEvent.isEnergy
        = [LogEvent.energy
            (calc_signal_energy F32 ((List.replicate 40 readySample).map
              (fun d => ((convert_to_count d.out_x : Int) : F32) / ((256 : Int) : F32))) 40)
            (calc_signal_energy F32 ((List.replicate 40 readySample).map
              (fun d => ((convert_to_count d.out_y : Int) : F32) / ((256 : Int) : F32))) 40)
            (calc_signal_energy F32 ((List.replicate 40 readySample).map
              (fun d => ((convert_to_count d.out_z : Int) : F32) / ((256 : Int) : F32))) 40)] ∧
      (run F32 datasheet (LoopState.init F32, singleRegBus 0 0, [])
          (List.replicate 40 readySample ++ [readySample])).1.buf_index = 0 :=
  have h := end_to_end_energy F32 datasheet (LoopState.init F32) (singleRegBus 0 0)
      (List.replicate 40 readySample) readySample rfl (by decide) (by decide) (by decide)
      (replicate_ready 40) (by decide) rfl (by decide) (by decide) (by decide)
      (by decide)
  ⟨⟨rfl, by decide, rfl, by decide⟩, h.1, h.2.2⟩



/-! ## Theorems: buffer indices -/

/-- The indices of one iteration, for an index within `[0, 40]`: all are below 40 except the
index 40 of the `info1` reads in the iteration that starts at `buf_index = 39`. -/
theorem loop_body_indices_lt (j : Nat) (d : xyz_rawdata_t) (hj : j ≤ 40) :
    ∀ i ∈ loop_body_indices j d, i < ACC_XYZ_DATA_LEN ∨ (i = 40 ∧ j = 39 ∧ d.status = 15) := by
  intro i hi
  unfold loop_body_indices at hi
  unfold ACC_XYZ_DATA_LEN at *
  by_cases hs : d.status = 15
  · by_cases hlt : j < 40
    · have hu : u16 (j + 1) = j + 1 := by unfold u16; omega
      simp only [if_pos hs, if_pos hlt, hu, List.mem_append, List.mem_cons,
        List.mem_singleton, List.not_mem_nil, or_false] at hi
      by_cases h39 : j = 39
      · rcases hi with (h | h | h) | (h | h | h) <;> omega
      · left; rcases hi with (h | h | h) | (h | h | h) <;> omega
    · have hu : u32 j = j := by unfold u32; omega
      simp only [if_pos hs, if_neg hlt, hu, List.mem_append, List.mem_range] at hi
      left; omega
  · simp [if_neg hs] at hi

/-- The `info1` line of the iteration that starts at `buf_index = 39` on a ready sample,
with buffers of 40 entries: it prints index 40 and reads the three buffers at 40, outside
each of them. -/
theorem loop_body_log_read_at_39 (α : Type) [Zero α] [Add α] [Sub α] [Mul α] [Div α]
    [NatCast α] [IntCast α] (k : RegDefs) (st : LoopState α) (bus : Bus) (d : xyz_rawdata_t)
    (hs : d.status = 15) (hj : st.buf_index = 39) (hx : st.buf1_x.length = 40)
    (hy : st.buf1_y.length = 40) (hz : st.buf1_z.length = 40) :
    (loop_body α k st bus d).2.2 = [LogEvent.sample 40 none none none] := by
  have hlt : st.buf_index < ACC_XYZ_DATA_LEN := by rw [hj]; decide
  have hu : u16 (st.buf_index + 1) = 40 := by rw [hj]; decide
  simp only [loop_body, if_pos hs, if_pos hlt, hu]
  have h1 : ∀ (L : List α) (v : α), L.length = 40 → (L.set st.buf_index v)[40]? = none := by
    intro L v hL
    apply List.getElem?_eq_none
    simp [hL]
  rw [h1 _ _ hx, h1 _ _ hy, h1 _ _ hz]

set_option maxRecDepth 100000 in
/-- C21, evaluated on the data-sheet register map: the state after 39 status-ready samples
from the initial state is reachable and has `buf_index = 39`; the iteration on the 40th ready
sample writes the three buffers at 39 and then, for its log line, reads them at
`buf_index = 40`, which is not below `ACC_XYZ_DATA_LEN`: with Option-valued indexing the
three reads are out of range. Every other read, the energy computation of the 41st
iteration included, is in range. -/
theorem log_read_out_of_range :
    ((run F32 datasheet (LoopState.init F32, singleRegBus 0 0, [])
        (List.replicate 39 readySample)).1.buf_index = 39 ∧ readySample.status = 15) ∧
      (loop_body_indices 39 readySample = [39, 39, 39, 40, 40, 40] ∧
        ¬ 40 < ACC_XYZ_DATA_LEN) ∧
      (run F32 datasheet (LoopState.init F32, singleRegBus 0 0, [])
          (List.replicate 41 readySample)).2.2.map
            (fun e => (LogEvent.sampleIndex e, LogEvent.readsInRange e))
        = (List.range 39).map (fun i => (some (i + 1), true))
            ++ [(some 40, false), (none, true)] := by
  decide

end Mma8653fc
